import Mathlib

/-!
Verification development for the Pepper interpreter front-end.

The development shallowly embeds the two source files of the repository:
`lex.c` (the hand-written lexer, function `gettoken`) and the main file
(the REPL loop `repl`, the script runner `run_script`, the file reader
`read_file` and the CLI dispatcher `main`).  The compiler, symbol table
and virtual machine are not part of the surveyed sources; where a claim
needs them they are taken as abstract collaborators or modelled from the
specification, as noted on each definition.
-/

/-! ## Lexer data model (from `lex.c` and the missing `lex.h`) -/

/-- Modelled from the spec and `lex.c`: `MAX_IDENT_LENGTH` lives in the
missing header `lex.h`; `gettoken` clears the literal buffer with
`memset(t->literal, '\0', 64)`, so the buffer is 64 bytes and the
constant is taken as 64. -/
def MAX_IDENT_LENGTH : Nat := 64

/-- The token kinds of `enum token_type`, in the order of the
`token_names` table of `token_type_to_str`. -/
inductive token_type where
  | TOKEN_ILLEGAL | TOKEN_EOF | TOKEN_IDENT | TOKEN_INT | TOKEN_FUNCTION | TOKEN_LET
  | TOKEN_TRUE | TOKEN_FALSE | TOKEN_IF | TOKEN_ELSE | TOKEN_FOR | TOKEN_IN
  | TOKEN_WHILE | TOKEN_RETURN | TOKEN_ASSIGN | TOKEN_PLUS | TOKEN_MINUS
  | TOKEN_BANG | TOKEN_ASTERISK | TOKEN_SLASH | TOKEN_PERCENT | TOKEN_LT
  | TOKEN_LTE | TOKEN_GT | TOKEN_GTE | TOKEN_EQ | TOKEN_NOT_EQ | TOKEN_COMMA
  | TOKEN_SEMICOLON | TOKEN_LPAREN | TOKEN_RPAREN | TOKEN_LBRACE | TOKEN_RBRACE
  | TOKEN_STRING | TOKEN_LBRACKET | TOKEN_RBRACKET | TOKEN_AND | TOKEN_OR
  | TOKEN_BREAK | TOKEN_CONTINUE | TOKEN_COLON
deriving DecidableEq

/-- `struct token`: the 64-byte `literal` buffer is modelled as the list
of characters stored before the terminating NUL; `strStart`/`strEnd`
model the `start`/`end` pointers of string tokens as indices into the
input. -/
structure token where
  type : token_type
  literal : List Char
  line : Nat
  pos : Nat
  strStart : Nat
  strEnd : Nat
deriving DecidableEq

/-- `struct lexer` from `lex.c` (`new_lexer`). -/
@[ext] structure lexer where
  input : List Char
  pos : Nat
  cur_lineno : Nat
  cur_linepos : Nat
deriving DecidableEq

/-- Reading `l->input[i]`: a C string read past its contents yields the
terminating NUL. -/
def charAt (s : List Char) (i : Nat) : Char := s.getD i '\x00'

/-- C `isspace` in the default locale. -/
def isspace (c : Char) : Bool :=
  c = ' ' || c = '\t' || c = '\n' || c = '\x0b' || c = '\x0c' || c = '\r'

/-- `is_letter` from `lex.c`. -/
def is_letter (ch : Char) : Bool :=
  ('a' ≤ ch && ch ≤ 'z') || ('A' ≤ ch && ch ≤ 'Z') || (ch = '_')

/-- C `isdigit`. -/
def isdigit (c : Char) : Bool := '0' ≤ c && c ≤ '9'

/-- `new_lexer` from `lex.c`. -/
def new_lexer (input : List Char) : lexer :=
  { input := input, pos := 0, cur_lineno := 1, cur_linepos := 0 }

/-- The whitespace loop of `gettoken` (lines 147-155): the current
character is `input[pos - 1]`; while it is whitespace the line counters
are updated and the next character is consumed. -/
def skipWS (l : lexer) : lexer :=
  if h : isspace (charAt l.input (l.pos - 1)) = true then
    if charAt l.input (l.pos - 1) = '\n' then
      skipWS { l with pos := l.pos + 1, cur_lineno := l.cur_lineno + 1, cur_linepos := 1 }
    else
      skipWS { l with pos := l.pos + 1, cur_linepos := l.cur_linepos + 1 }
  else l
termination_by l.input.length + 1 - l.pos
decreasing_by
  all_goals
    have hne : charAt l.input (l.pos - 1) ≠ '\x00' := by
      intro hc; rw [hc] at h; exact absurd h (by decide)
    have hlt : l.pos - 1 < l.input.length := by
      by_contra hge
      exact hne (List.getD_eq_default _ _ (Nat.le_of_not_lt hge))
    omega

/-- The comment-skipping loop of `gettoken` (lines 240-243): advance
until the next newline or NUL, neither of which is consumed. -/
def skipComment (l : lexer) : lexer :=
  if h : charAt l.input l.pos ≠ '\n' ∧ charAt l.input l.pos ≠ '\x00' then
    skipComment { l with pos := l.pos + 1, cur_linepos := l.cur_linepos + 1 }
  else l
termination_by l.input.length - l.pos
decreasing_by
  have hlt : l.pos < l.input.length := by
    by_contra hge
    exact h.2 (List.getD_eq_default _ _ (Nat.le_of_not_lt hge))
  omega

/-- The string-literal loop of `gettoken` (lines 336-342): after the
consuming read, `input[pos - 2]` is the character before the one just
read. -/
def readStr (l : lexer) : lexer :=
  if h : charAt l.input l.pos = '\x00'
       ∨ (charAt l.input l.pos = '"' ∧ charAt l.input (l.pos - 1) ≠ '\\') then
    { l with pos := l.pos + 1, cur_linepos := l.cur_linepos + 1 }
  else readStr { l with pos := l.pos + 1, cur_linepos := l.cur_linepos + 1 }
termination_by l.input.length - l.pos
decreasing_by
  have hne : charAt l.input l.pos ≠ '\x00' := fun hc => h (Or.inl hc)
  have hlt : l.pos < l.input.length := by
    by_contra hge
    exact hne (List.getD_eq_default _ _ (Nat.le_of_not_lt hge))
  omega

/-- The letter/digit accumulation loops of `gettoken` (lines 349-353 and
362-366): `ch` is the current character (already consumed, `l.pos` is
one past it), `lit` the literal collected so far.  The loop stores `ch`,
reads the next character and stops when the character fails `cond` or
the literal already holds `MAX_IDENT_LENGTH - 1` characters. -/
def lexRun (cond : Char → Bool) (l : lexer) (ch : Char) (lit : List Char) :
    List Char × Char × lexer :=
  if h : cond ch = true ∧ lit.length < MAX_IDENT_LENGTH - 1 then
    lexRun cond { l with pos := l.pos + 1, cur_linepos := l.cur_linepos + 1 }
      (charAt l.input l.pos) (lit ++ [ch])
  else (lit, ch, l)
termination_by MAX_IDENT_LENGTH - 1 - lit.length
decreasing_by
  simp only [List.length_append, List.length_cons, List.length_nil]
  omega

/-- `get_ident` from `lex.c`: keyword recognition on the literal. -/
def get_ident (lit : List Char) : token_type :=
  if lit = ("let").toList then .TOKEN_LET
  else if lit = ("fn").toList then .TOKEN_FUNCTION
  else if lit = ("true").toList then .TOKEN_TRUE
  else if lit = ("false").toList then .TOKEN_FALSE
  else if lit = ("if").toList then .TOKEN_IF
  else if lit = ("else").toList then .TOKEN_ELSE
  else if lit = ("return").toList then .TOKEN_RETURN
  else if lit = ("while").toList then .TOKEN_WHILE
  else if lit = ("for").toList then .TOKEN_FOR
  else if lit = ("in").toList then .TOKEN_IN
  else if lit = ("break").toList then .TOKEN_BREAK
  else if lit = ("continue").toList then .TOKEN_CONTINUE
  else .TOKEN_IDENT

/-- Building a token in one `case` of `gettoken`: the line/position are
stored before the switch (lines 160-161); `start`/`end` keep the
caller's values (only the string case writes them). -/
def mk_tok (l2 : lexer) (tIn : token) (ty : token_type) (lit : List Char) : token :=
  { type := ty, literal := lit, line := l2.cur_lineno, pos := l2.cur_linepos,
    strStart := tIn.strStart, strEnd := tIn.strEnd }

/-- Consuming the second character of a two-character operator
(`l->pos++; l->cur_linepos++`). -/
def adv_lexer (l2 : lexer) : lexer :=
  { l2 with pos := l2.pos + 1, cur_linepos := l2.cur_linepos + 1 }

/-- The `switch (ch)` dispatch of `gettoken` (lines 163-385) for every
case except the line-comment restart, applied to the lexer state `l2`
reached after the whitespace loop; the current character `ch` is
`input[l2.pos - 1]` (each case of the chain spells out this read).
`gettoken_case` below peels off the comment restart first, so in the
`'/'` case the next character is known not to be `'/'` and the slash
token is produced directly.  The caller's token `tIn` is passed in
because the C function only clears the `literal` field: in the `'|'`
and `'&'` cases with no second operator character no token type is
assigned, so the caller's previous `type` survives.  The C return
value is the constant 1 and is omitted. -/
def gettoken_tok (l2 : lexer) (tIn : token) : token × lexer :=
  if charAt l2.input (l2.pos - 1) = '=' then
    if charAt l2.input l2.pos = '=' then
      (mk_tok l2 tIn .TOKEN_EQ (("==").toList), adv_lexer l2)
    else (mk_tok l2 tIn .TOKEN_ASSIGN [charAt l2.input (l2.pos - 1)], l2)
  else if charAt l2.input (l2.pos - 1) = ';' then
    (mk_tok l2 tIn .TOKEN_SEMICOLON [charAt l2.input (l2.pos - 1)], l2)
  else if charAt l2.input (l2.pos - 1) = ':' then
    (mk_tok l2 tIn .TOKEN_COLON [charAt l2.input (l2.pos - 1)], l2)
  else if charAt l2.input (l2.pos - 1) = '(' then
    (mk_tok l2 tIn .TOKEN_LPAREN [charAt l2.input (l2.pos - 1)], l2)
  else if charAt l2.input (l2.pos - 1) = ')' then
    (mk_tok l2 tIn .TOKEN_RPAREN [charAt l2.input (l2.pos - 1)], l2)
  else if charAt l2.input (l2.pos - 1) = ',' then
    (mk_tok l2 tIn .TOKEN_COMMA [charAt l2.input (l2.pos - 1)], l2)
  else if charAt l2.input (l2.pos - 1) = '+' then
    (mk_tok l2 tIn .TOKEN_PLUS [charAt l2.input (l2.pos - 1)], l2)
  else if charAt l2.input (l2.pos - 1) = '-' then
    (mk_tok l2 tIn .TOKEN_MINUS [charAt l2.input (l2.pos - 1)], l2)
  else if charAt l2.input (l2.pos - 1) = '!' then
    if charAt l2.input l2.pos = '=' then
      (mk_tok l2 tIn .TOKEN_NOT_EQ (("!=").toList), adv_lexer l2)
    else (mk_tok l2 tIn .TOKEN_BANG [charAt l2.input (l2.pos - 1)], l2)
  else if charAt l2.input (l2.pos - 1) = '/' then
    (mk_tok l2 tIn .TOKEN_SLASH [charAt l2.input (l2.pos - 1)], l2)
  else if charAt l2.input (l2.pos - 1) = '*' then
    (mk_tok l2 tIn .TOKEN_ASTERISK [charAt l2.input (l2.pos - 1)], l2)
  else if charAt l2.input (l2.pos - 1) = '<' then
    if charAt l2.input l2.pos = '=' then
      (mk_tok l2 tIn .TOKEN_LTE (("<=").toList), adv_lexer l2)
    else (mk_tok l2 tIn .TOKEN_LT (("<").toList), l2)
  else if charAt l2.input (l2.pos - 1) = '>' then
    if charAt l2.input l2.pos = '=' then
      (mk_tok l2 tIn .TOKEN_GTE ((">=").toList), adv_lexer l2)
    else (mk_tok l2 tIn .TOKEN_GT ((">").toList), l2)
  else if charAt l2.input (l2.pos - 1) = '\x7b' then
    (mk_tok l2 tIn .TOKEN_LBRACE [charAt l2.input (l2.pos - 1)], l2)
  else if charAt l2.input (l2.pos - 1) = '\x7d' then
    (mk_tok l2 tIn .TOKEN_RBRACE [charAt l2.input (l2.pos - 1)], l2)
  else if charAt l2.input (l2.pos - 1) = '[' then
    (mk_tok l2 tIn .TOKEN_LBRACKET [charAt l2.input (l2.pos - 1)], l2)
  else if charAt l2.input (l2.pos - 1) = ']' then
    (mk_tok l2 tIn .TOKEN_RBRACKET [charAt l2.input (l2.pos - 1)], l2)
  else if charAt l2.input (l2.pos - 1) = '%' then
    (mk_tok l2 tIn .TOKEN_PERCENT [charAt l2.input (l2.pos - 1)], l2)
  else if charAt l2.input (l2.pos - 1) = '|' then
    if charAt l2.input l2.pos = '|' then
      (mk_tok l2 tIn .TOKEN_OR (("||").toList), adv_lexer l2)
    else (mk_tok l2 tIn tIn.type [], l2)
  else if charAt l2.input (l2.pos - 1) = '&' then
    if charAt l2.input l2.pos = '&' then
      (mk_tok l2 tIn .TOKEN_AND (("&&").toList), adv_lexer l2)
    else (mk_tok l2 tIn tIn.type [], l2)
  else if charAt l2.input (l2.pos - 1) = '"' then
    ({ type := .TOKEN_STRING, literal := [], line := l2.cur_lineno,
       pos := l2.cur_linepos, strStart := l2.pos, strEnd := (readStr l2).pos - 1 },
     readStr l2)
  else if charAt l2.input (l2.pos - 1) = '\x00' then
    (mk_tok l2 tIn .TOKEN_EOF [], l2)
  else if is_letter (charAt l2.input (l2.pos - 1)) then
    let r := lexRun (fun c => is_letter c || isdigit c) l2 (charAt l2.input (l2.pos - 1)) []
    (mk_tok l2 tIn (get_ident r.1) r.1,
     { r.2.2 with pos := r.2.2.pos - 1, cur_linepos := r.2.2.cur_linepos - 1 })
  else if isdigit (charAt l2.input (l2.pos - 1)) then
    let r := lexRun isdigit l2 (charAt l2.input (l2.pos - 1)) []
    (mk_tok l2 tIn .TOKEN_INT r.1,
     { r.2.2 with pos := r.2.2.pos - 1, cur_linepos := r.2.2.cur_linepos - 1 })
  else (mk_tok l2 tIn .TOKEN_ILLEGAL [charAt l2.input (l2.pos - 1)], l2)

/-- The full dispatch of `gettoken`: two consecutive forward slashes
(lines 234-245) skip the comment and return `Sum.inr` with the lexer
state at which the C code re-enters `gettoken` (`return gettoken(l, t)`);
every other case produces its token via `gettoken_tok`. -/
def gettoken_case (l2 : lexer) (tIn : token) : (token × lexer) ⊕ lexer :=
  if charAt l2.input (l2.pos - 1) = '/' ∧ charAt l2.input l2.pos = '/' then
    .inr (skipComment l2)
  else .inl (gettoken_tok l2 tIn)

set_option maxHeartbeats 1000000 in
/-- `gettoken` from `lex.c`: read a character (`l->pos++`), skip
whitespace, then dispatch; the comment case loops back into
`gettoken`. -/
def gettoken (l0 : lexer) (tIn : token) : token × lexer :=
  let l2 := skipWS { l0 with pos := l0.pos + 1, cur_linepos := l0.cur_linepos + 1 }
  match hm : gettoken_case l2 tIn with
  | .inl r => r
  | .inr l3 => gettoken l3 tIn
termination_by l0.input.length + 1 - l0.pos
decreasing_by
  have hwsi : ∀ l : lexer, (skipWS l).input = l.input := by
    intro l
    induction l using skipWS.induct with
    | case1 x h1 h2 ih => rw [skipWS, dif_pos h1, if_pos h2]; exact ih
    | case2 x h1 h2 ih => rw [skipWS, dif_pos h1, if_neg h2]; exact ih
    | case3 x h1 => rw [skipWS, dif_neg h1]
  have hwsp : ∀ l : lexer, l.pos ≤ (skipWS l).pos := by
    intro l
    induction l using skipWS.induct with
    | case1 x h1 h2 ih => rw [skipWS, dif_pos h1, if_pos h2]; exact Nat.le_trans (Nat.le_succ _) ih
    | case2 x h1 h2 ih => rw [skipWS, dif_pos h1, if_neg h2]; exact Nat.le_trans (Nat.le_succ _) ih
    | case3 x h1 => rw [skipWS, dif_neg h1]
  have hsci : ∀ l : lexer, (skipComment l).input = l.input := by
    intro l
    induction l using skipComment.induct with
    | case1 x h1 ih => rw [skipComment, dif_pos h1]; exact ih
    | case2 x h1 => rw [skipComment, dif_neg h1]
  have hscp : ∀ l : lexer, l.pos ≤ (skipComment l).pos := by
    intro l
    induction l using skipComment.induct with
    | case1 x h1 ih => rw [skipComment, dif_pos h1]; exact Nat.le_trans (Nat.le_succ _) ih
    | case2 x h1 => rw [skipComment, dif_neg h1]
  have hwin : l2.input = l0.input := hwsi _
  have hP : l0.pos + 1 ≤ l2.pos :=
    hwsp { l0 with pos := l0.pos + 1, cur_linepos := l0.cur_linepos + 1 }
  clear_value l2
  have key : charAt l2.input l2.pos = '/' ∧ l3 = skipComment l2 := by
    unfold gettoken_case at hm
    by_cases hp : charAt l2.input (l2.pos - 1) = '/' ∧ charAt l2.input l2.pos = '/'
    · rw [if_pos hp] at hm
      injection hm with hh
      exact ⟨hp.2, hh.symm⟩
    · rw [if_neg hp] at hm
      exact Sum.noConfusion hm
  obtain ⟨hsl, rfl⟩ := key
  have hlt : l2.pos < l0.input.length := by
    by_contra hge
    have hz : charAt l2.input l2.pos = '\x00' := by
      rw [hwin]; exact List.getD_eq_default _ _ (Nat.le_of_not_lt hge)
    rw [hz] at hsl; exact absurd hsl (by decide)
  have hsk : l2.pos + 1 ≤ (skipComment l2).pos := by
    rw [skipComment, dif_pos ⟨by rw [hsl]; decide, by rw [hsl]; decide⟩]
    exact hscp { l2 with pos := l2.pos + 1, cur_linepos := l2.cur_linepos + 1 }
  have hIn : (skipComment l2).input = l0.input := by rw [hsci, hwin]
  rw [hIn]
  omega

/-- The characters `input[start] ... input[start + n - 1]`. -/
def seg (s : List Char) (start n : Nat) : List Char :=
  (List.range n).map fun k => charAt s (start + k)

/-! ## `read_file`, `run_script` and `main` (from the main source file) -/

/-- `BUFSIZ` of the C library (glibc value). -/
def BUFSIZ : Nat := 8192

def EXIT_SUCCESS : Nat := 0

def EXIT_FAILURE : Nat := 1

/-- The `fread` loop of `read_file` (lines 151-159).  `buf` is the
current heap buffer, `rest` the bytes the stream has not yet delivered,
`size` the running byte count.  Each `fread(input, 1, BUFSIZ, f)` writes
the next chunk at offset 0 of the buffer; a full chunk triggers
`realloc(input, size + BUFSIZ)`, whose fresh tail bytes are modelled as
NUL (they are uninitialised in C; no property proved below depends on
this choice). -/
def readLoop (buf rest : List Char) (size : Nat) : List Char × Nat :=
  if h : 0 < (rest.take BUFSIZ).length then
    let chunk := rest.take BUFSIZ
    let size1 := size + chunk.length
    let buf1 := chunk ++ buf.drop chunk.length
    let buf2 := if BUFSIZ ≤ chunk.length then buf1 ++ List.replicate BUFSIZ '\x00' else buf1
    readLoop buf2 (rest.drop BUFSIZ) size1
  else (buf, size)
termination_by rest.length
decreasing_by
  simp only [List.length_take, List.length_drop] at *
  omega

/-- `read_file` (lines 140-164): `calloc(BUFSIZ, 1)`, the `fread` loop,
then `input[size] = '\0'`.  The argument is the full byte contents of
the file; the result is the returned buffer. -/
def read_file (contents : List Char) : List Char :=
  let r := readLoop (List.replicate BUFSIZ '\x00') contents 0
  r.1.set r.2 '\x00'

/-- The C string a `char *` buffer denotes: its bytes up to the first
NUL.  This is what `new_lexer` receives. -/
def cString (s : List Char) : List Char := s.takeWhile fun c => c != '\x00'

def VERSION_MAJOR : Nat := 0

def VERSION_MINOR : Nat := 0

def VERSION_PATCH : Nat := 1

/-- The banner printed by `print_version`
(`printf("Pepper v%d.%d.%d\n", ...)`). -/
def print_version : String :=
  "Pepper v" ++ toString VERSION_MAJOR ++ "." ++ toString VERSION_MINOR ++ "."
    ++ toString VERSION_PATCH ++ "\n"

/-! ## Objects and globals (interfaces of `object.h` / `vm.h`) -/

/-- Modelled from the spec (§3, value variants) and the two tags the
main file names (`OBJ_COMPILED_FUNCTION`, `OBJ_BUILTIN`): the type tag
of `struct object`. -/
inductive obj_type where
  | OBJ_NULL | OBJ_BOOL | OBJ_INT | OBJ_STRING | OBJ_ARRAY | OBJ_MAP
  | OBJ_COMPILED_FUNCTION | OBJ_CLOSURE | OBJ_BUILTIN
deriving DecidableEq

/-- `struct object`: a type tag plus its union payload, the latter
abstracted to a number. -/
structure object where
  type : obj_type
  value : Int
deriving DecidableEq

/-- Modelled from the spec (§4.4: "a globals array of fixed capacity
(e.g. 512)"): `GLOBALS_SIZE` of the missing `vm.h`. -/
def GLOBALS_SIZE : Nat := 512

/-! ## Symbol table (modelled from the spec, §4.2)

The symbol table sources are not under the surveyed tree; the following
definitions are modelled from the spec's §4.2 wording. -/

/-- Modelled from the spec: the storage classes of §4.2/§3. -/
inductive sym_scope where
  | GLOBAL_SCOPE | LOCAL_SCOPE | FREE_SCOPE | BUILTIN_SCOPE | FUNCTION_SCOPE
deriving DecidableEq

/-- Modelled from the spec: a symbol `{name, scope, index}`. -/
structure symbol where
  name : String
  scope : sym_scope
  index : Nat
deriving DecidableEq

/-- Modelled from the spec: one scope of the symbol table, owning a
name-to-symbol store, the `free_symbols` list and `num_definitions`. -/
structure scope_frame where
  store : List (String × symbol)
  free_symbols : List symbol
  num_definitions : Nat
deriving DecidableEq

/-- Modelled from the spec: the stack of scopes, innermost first. -/
abbrev symtab := List scope_frame

/-- Modelled from the spec: `symbol_table_new()` — a table holding just
the outermost (global) scope. -/
def symbol_table_new : symtab := [{ store := [], free_symbols := [], num_definitions := 0 }]

/-- Modelled from the spec (§4.2 `define_free`): append the original
symbol to this scope's `free_symbols`; the result is a `Free` symbol
whose index is the new list length minus one.  The store is updated with
the new symbol so that later resolution in the same scope finds it
(spec §8 invariant 4, resolution stability). -/
def define_free (fr : scope_frame) (original : symbol) : symbol × scope_frame :=
  let fs := fr.free_symbols ++ [original]
  let s : symbol := { name := original.name, scope := .FREE_SCOPE, index := fs.length - 1 }
  (s, { fr with free_symbols := fs, store := (original.name, s) :: fr.store })

/-- Modelled from the spec (§4.2 `resolve`): search the current scope;
otherwise recurse into the enclosing scopes.  A recursive result that is
`Global` or `Builtin` is returned unchanged; any other result is
promoted to a `Free` symbol via `define_free` in the current scope.  The
updated table is returned alongside the symbol. -/
def resolve : symtab → String → Option (symbol × symtab)
  | [], _ => none
  | fr :: outer, name =>
    match fr.store.lookup name with
    | some s => some (s, fr :: outer)
    | none =>
      match resolve outer name with
      | none => none
      | some (s, outer1) =>
        if s.scope = .GLOBAL_SCOPE ∨ s.scope = .BUILTIN_SCOPE then
          some (s, fr :: outer1)
        else
          let p := define_free fr s
          some (p.1, p.2 :: outer1)

/-! ## The REPL loop (function `repl` of the main file)

The parser, compiler and virtual machine are external collaborators of
the main file.  `repl_core` abstracts exactly the calls `repl` makes:
`parse_program`, `compiler_new_with_state` + `compile_program` +
`get_bytecode` (one compound step, mutating the symbol table and
constant pool it is handed), `vm_new_with_globals` + `vm_run`,
`vm_stack_last_popped`, `machine->globals`, `compiler_error_str` and
`print_object`. -/
structure repl_core (Prog Bc Vm : Type) where
  parse : String → List String × Prog
  compile : symtab → List object → Prog → Int × symtab × List object × Bc
  vm_run : Bc → (Fin GLOBALS_SIZE → object) → Int × Vm
  vm_globals : Vm → Fin GLOBALS_SIZE → object
  vm_stack_last_popped : Vm → object
  compiler_error_str : Int → String
  print_object : object → String

/-- The state `repl` creates once before its loop (lines 28-31):
symbol table, constant pool and the caller-owned globals buffer. -/
structure repl_state where
  symbol_table : symtab
  constants : List object
  globals : Fin GLOBALS_SIZE → object

/-- What one REPL iteration did. -/
inductive repl_event where
  | eof
  | parse_error (msgs : List String)
  | compile_error (code : Int)
  | runtime_error (code : Int)
  | value (o : object) (printed : Bool)
deriving DecidableEq

/-- Control flow at the end of one iteration of a C loop body. -/
inductive loop_flow where
  | continue_loop
  | exit_loop (ret : Int)
deriving DecidableEq

/-- Observables of one REPL iteration: the (symbol table, constant pool)
pair handed to `compiler_new_with_state` (if reached), the globals
buffer handed to `vm_new_with_globals` (if reached), everything printed,
the event, and whether the body reached a `return`/`break`. -/
structure repl_trace where
  compile_args : Option (symtab × List object)
  vm_globals_arg : Option (Fin GLOBALS_SIZE → object)
  output : List String
  event : repl_event
  flow : loop_flow

/-- One iteration of the `while (1)` body of `repl` (lines 33-84).
`line` is the `fgets` result (`none` on end of input).  The compiler
mutates the symbol table and constant pool through the pointers it was
handed, so the state always carries the compiler's returned versions
once `compile_program` ran; the globals copy-out loop (lines 75-77) runs
only after an error-free `vm_run`. -/
def repl_step {Prog Bc Vm : Type} (core : repl_core Prog Bc Vm)
    (st : repl_state) (line : Option String) : repl_state × repl_trace :=
  match line with
  | none => (st, ⟨none, none, [">> "], .eof, .continue_loop⟩)
  | some input =>
    let pr := core.parse input
    if 0 < pr.1.length then
      (st, ⟨none, none,
        [">> ", "Parsing error:\n"] ++ pr.1.map (fun m => "- " ++ m ++ "\n"),
        .parse_error pr.1, .continue_loop⟩)
    else
      let c := core.compile st.symbol_table st.constants pr.2
      let st1 : repl_state := { st with symbol_table := c.2.1, constants := c.2.2.1 }
      if c.1 ≠ 0 then
        (st1, ⟨some (st.symbol_table, st.constants), none,
          [">> ", core.compiler_error_str c.1 ++ "\n"], .compile_error c.1, .continue_loop⟩)
      else
        let r := core.vm_run c.2.2.2 st.globals
        if r.1 ≠ 0 then
          (st1, ⟨some (st.symbol_table, st.constants), some st.globals,
            [">> ", "Error executing bytecode: " ++ toString r.1 ++ "\n"],
            .runtime_error r.1, .continue_loop⟩)
        else
          let obj := core.vm_stack_last_popped r.2
          let st2 : repl_state := { st1 with globals := core.vm_globals r.2 }
          if obj.type = .OBJ_COMPILED_FUNCTION ∨ obj.type = .OBJ_BUILTIN then
            (st2, ⟨some (st.symbol_table, st.constants), some st.globals,
              [">> "], .value obj false, .continue_loop⟩)
          else
            (st2, ⟨some (st.symbol_table, st.constants), some st.globals,
              [">> ", core.print_object obj, "\n"], .value obj true, .continue_loop⟩)

/-- The `while (1)` loop of `repl`, driven by a finite stream of `fgets`
results.  The second component is `some ret` as soon as an iteration
reaches a `return` or `break`, and `none` while the loop is still
running after consuming the stream. -/
def repl_loop {Prog Bc Vm : Type} (core : repl_core Prog Bc Vm)
    (st : repl_state) : List (Option String) → repl_state × Option Int
  | [] => (st, none)
  | line :: rest =>
    let s := repl_step core st line
    match s.2.flow with
    | .continue_loop => repl_loop core s.1 rest
    | .exit_loop ret => (s.1, some ret)

/-- The state `repl` builds before entering its loop: a fresh symbol
table, a fresh constant pool (`make_object_list(64)`, empty), and the
stack globals buffer (uninitialised in C; modelled as nulls — no claim
depends on the initial contents). -/
def repl_init : repl_state :=
  { symbol_table := symbol_table_new, constants := [],
    globals := fun _ => { type := .OBJ_NULL, value := 0 } }

/-- `repl` (lines 23-87): create the state once, then loop. -/
def repl {Prog Bc Vm : Type} (core : repl_core Prog Bc Vm)
    (lines : List (Option String)) : repl_state × Option Int :=
  repl_loop core repl_init lines

/-! ## `run_script` (lines 89-125) -/

/-- The collaborators `run_script` uses: `parse_program`,
`compiler_new` + `compile_program` + `get_bytecode`, and
`vm_new` + `vm_run` (fresh state, no globals threading). -/
structure script_core (Prog Bc Vm : Type) where
  parse : List Char → List String × Prog
  compile : Prog → Int × Bc
  vm_run : Bc → Int × Vm

/-- `run_script`: read the file, lex/parse the resulting C string,
compile, run; `EXIT_FAILURE` on the first error, `EXIT_SUCCESS`
otherwise. -/
def run_script {Prog Bc Vm : Type} (core : script_core Prog Bc Vm)
    (contents : List Char) : Nat :=
  let input := cString (read_file contents)
  let pr := core.parse input
  if 0 < pr.1.length then EXIT_FAILURE
  else
    let c := core.compile pr.2
    if c.1 ≠ 0 then EXIT_FAILURE
    else
      let r := core.vm_run c.2
      if r.1 ≠ 0 then EXIT_FAILURE
      else EXIT_SUCCESS

/-! ## `main` (lines 127-138) -/

/-- What `main` does with its command line. -/
inductive main_action where
  | repl_action
  | version_action (banner : String) (ret : Nat)
  | script_action (filename : String)
deriving DecidableEq

/-- C `main` (Lean reserves the name `main` for executables): `argv`
includes the program name (`argc = argv.length`).  Fewer than two
entries enters the REPL; a first argument `--version` prints the banner
and returns 0; any other first argument is run as a script file. -/
def pepper_main (argv : List String) : main_action :=
  if argv.length < 2 then .repl_action
  else if argv.getD 1 "" = "--version" then .version_action print_version 0
  else .script_action (argv.getD 1 "")

/-! ## Concrete instances used by the witnesses -/

def obj0 : object := { type := .OBJ_NULL, value := 0 }

/-- A trivial collaborator: parsing never fails, compiling returns its
state unchanged, the machine is the globals buffer itself and always
succeeds. -/
def triv_core : repl_core Unit Unit (Fin GLOBALS_SIZE → object) :=
  { parse := fun _ => ([], ())
    compile := fun stab consts _ => (0, stab, consts, ())
    vm_run := fun _ g => (0, g)
    vm_globals := fun g => g
    vm_stack_last_popped := fun _ => { type := .OBJ_INT, value := 7 }
    compiler_error_str := fun _ => ""
    print_object := fun _ => "7" }

/-- A collaborator whose parser always reports one error. -/
def parse_err_core : repl_core Unit Unit (Fin GLOBALS_SIZE → object) :=
  { triv_core with parse := fun _ => (["unexpected token"], ()) }

def st0 : repl_state :=
  { symbol_table := symbol_table_new, constants := [], globals := fun _ => obj0 }

def tok0 : token :=
  { type := .TOKEN_EOF, literal := [], line := 0, pos := 0, strStart := 0, strEnd := 0 }


/-- A scope with no definitions, used by concrete instances. -/
def empty_frame : scope_frame := { store := [], free_symbols := [], num_definitions := 0 }

/-- A local symbol `x`, used by concrete instances. -/
def xsym : symbol := { name := "x", scope := .LOCAL_SCOPE, index := 0 }

/-- A scope defining the local `x`, used by concrete instances. -/
def xframe : scope_frame := { store := [("x", xsym)], free_symbols := [], num_definitions := 1 }

/-- A file one byte longer than `BUFSIZ`: `BUFSIZ` letters `a` then one
letter `b`. -/
def bigFile : List Char := List.replicate BUFSIZ 'a' ++ ['b']

/-! ## Lexer lemmas -/

theorem charAt_oob {s : List Char} {i : Nat} (h : s.length ≤ i) : charAt s i = '\x00' :=
  List.getD_eq_default _ _ h

theorem charAt_lt {s : List Char} {i : Nat} (h : charAt s i ≠ '\x00') : i < s.length := by
  by_contra hge
  exact h (charAt_oob (Nat.le_of_not_lt hge))

theorem skipWS_id {l : lexer} (h : isspace (charAt l.input (l.pos - 1)) = false) :
    skipWS l = l := by
  rw [skipWS, dif_neg (by simp [h])]

theorem skipComment_spec (l : lexer) :
    ∃ j, l.pos ≤ j
      ∧ (∀ k, l.pos ≤ k → k < j → charAt l.input k ≠ '\n' ∧ charAt l.input k ≠ '\x00')
      ∧ (charAt l.input j = '\n' ∨ charAt l.input j = '\x00')
      ∧ skipComment l
          = { input := l.input, pos := j, cur_lineno := l.cur_lineno,
              cur_linepos := l.cur_linepos + (j - l.pos) } := by
  induction l using skipComment.induct with
  | case1 x h1 ih =>
    obtain ⟨j, hle0, hmid0, hend0, heq0⟩ := ih
    have hle : x.pos + 1 ≤ j := hle0
    have hmid : ∀ k, x.pos + 1 ≤ k → k < j →
        charAt x.input k ≠ '\n' ∧ charAt x.input k ≠ '\x00' := hmid0
    have hend : charAt x.input j = '\n' ∨ charAt x.input j = '\x00' := hend0
    have heq : skipComment { x with pos := x.pos + 1, cur_linepos := x.cur_linepos + 1 }
        = { input := x.input, pos := j, cur_lineno := x.cur_lineno,
            cur_linepos := x.cur_linepos + 1 + (j - (x.pos + 1)) } := heq0
    refine ⟨j, by omega, ?_, hend, ?_⟩
    · intro k hk1 hk2
      rcases Nat.eq_or_lt_of_le hk1 with hk | hk
      · rw [← hk]; exact h1
      · exact hmid k hk hk2
    · rw [skipComment, dif_pos h1, heq]
      have harith : x.cur_linepos + 1 + (j - (x.pos + 1)) = x.cur_linepos + (j - x.pos) := by
        omega
      rw [harith]
  | case2 x h1 =>
    refine ⟨x.pos, Nat.le_refl _, ?_, ?_, ?_⟩
    · intro k hk1 hk2; omega
    · by_contra hc
      push_neg at hc
      exact h1 ⟨hc.1, hc.2⟩
    · rw [skipComment, dif_neg h1]
      simp

theorem is_letter_ne {c d : Char} (h : is_letter c = true) (hd : is_letter d = false) :
    ¬ c = d := by
  intro he; rw [he] at h; rw [h] at hd; exact Bool.noConfusion hd

theorem isdigit_ne {c d : Char} (h : isdigit c = true) (hd : isdigit d = false) :
    ¬ c = d := by
  intro he; rw [he] at h; rw [h] at hd; exact Bool.noConfusion hd

/-- Reaching the line-comment branch: two consecutive slashes make
`gettoken` skip to the next newline or NUL and recurse. -/
theorem gettoken_comment_step (l : lexer) (tIn : token)
    (h1 : charAt l.input l.pos = '/') (h2 : charAt l.input (l.pos + 1) = '/') :
    gettoken l tIn
      = gettoken (skipComment { l with pos := l.pos + 1, cur_linepos := l.cur_linepos + 1 }) tIn := by
  have hws : skipWS { l with pos := l.pos + 1, cur_linepos := l.cur_linepos + 1 }
           = { l with pos := l.pos + 1, cur_linepos := l.cur_linepos + 1 } := by
    apply skipWS_id
    show isspace (charAt l.input (l.pos + 1 - 1)) = false
    rw [Nat.add_sub_cancel, h1]
    decide
  have hcase : gettoken_case { l with pos := l.pos + 1, cur_linepos := l.cur_linepos + 1 } tIn
      = .inr (skipComment { l with pos := l.pos + 1, cur_linepos := l.cur_linepos + 1 }) := by
    unfold gettoken_case
    exact if_pos ⟨h1, h2⟩
  conv_lhs => rw [gettoken]
  split
  · rename_i r heq
    rw [hws, hcase] at heq
    exact Sum.noConfusion heq
  · rename_i l3 heq
    rw [hws, hcase] at heq
    injection heq with hh
    rw [← hh]

theorem is_letter_not_space {c : Char} (h : is_letter c = true) : isspace c = false := by
  by_contra hc
  rw [Bool.not_eq_false] at hc
  simp only [isspace, Bool.or_eq_true, decide_eq_true_eq] at hc
  rcases hc with ((((h1 | h1) | h1) | h1) | h1) | h1 <;> (subst h1; exact absurd h (by decide))

theorem isdigit_not_space {c : Char} (h : isdigit c = true) : isspace c = false := by
  by_contra hc
  rw [Bool.not_eq_false] at hc
  simp only [isspace, Bool.or_eq_true, decide_eq_true_eq] at hc
  rcases hc with ((((h1 | h1) | h1) | h1) | h1) | h1 <;> (subst h1; exact absurd h (by decide))

/-- Reaching the identifier/keyword branch: a letter starts the
letter-digit accumulation loop, after which the last-read character is
returned to the input (`l->pos--`). -/
theorem gettoken_ident_step (l : lexer) (tIn : token)
    (hl : is_letter (charAt l.input l.pos) = true) :
    gettoken l tIn
      = (let r := lexRun (fun c => is_letter c || isdigit c)
             { l with pos := l.pos + 1, cur_linepos := l.cur_linepos + 1 }
             (charAt l.input l.pos) []
         ({ type := get_ident r.1, literal := r.1, line := l.cur_lineno,
            pos := l.cur_linepos + 1, strStart := tIn.strStart, strEnd := tIn.strEnd },
          { r.2.2 with pos := r.2.2.pos - 1, cur_linepos := r.2.2.cur_linepos - 1 })) := by
  have hws : skipWS { l with pos := l.pos + 1, cur_linepos := l.cur_linepos + 1 }
           = { l with pos := l.pos + 1, cur_linepos := l.cur_linepos + 1 } := by
    apply skipWS_id
    show isspace (charAt l.input (l.pos + 1 - 1)) = false
    rw [Nat.add_sub_cancel]
    exact is_letter_not_space hl
  have hcase : gettoken_case { l with pos := l.pos + 1, cur_linepos := l.cur_linepos + 1 } tIn
      = .inl (gettoken_tok { l with pos := l.pos + 1, cur_linepos := l.cur_linepos + 1 } tIn) := by
    unfold gettoken_case
    exact if_neg fun hp => (is_letter_ne hl (by decide : is_letter '/' = false)) hp.1
  have htok : gettoken_tok { l with pos := l.pos + 1, cur_linepos := l.cur_linepos + 1 } tIn
      = (let r := lexRun (fun c => is_letter c || isdigit c)
             { l with pos := l.pos + 1, cur_linepos := l.cur_linepos + 1 }
             (charAt l.input l.pos) []
         ({ type := get_ident r.1, literal := r.1, line := l.cur_lineno,
            pos := l.cur_linepos + 1, strStart := tIn.strStart, strEnd := tIn.strEnd },
          { r.2.2 with pos := r.2.2.pos - 1, cur_linepos := r.2.2.cur_linepos - 1 })) := by
    unfold gettoken_tok
    simp only [mk_tok, Nat.add_sub_cancel,
      if_neg (is_letter_ne hl (by decide : is_letter '=' = false)),
      if_neg (is_letter_ne hl (by decide : is_letter ';' = false)),
      if_neg (is_letter_ne hl (by decide : is_letter ':' = false)),
      if_neg (is_letter_ne hl (by decide : is_letter '(' = false)),
      if_neg (is_letter_ne hl (by decide : is_letter ')' = false)),
      if_neg (is_letter_ne hl (by decide : is_letter ',' = false)),
      if_neg (is_letter_ne hl (by decide : is_letter '+' = false)),
      if_neg (is_letter_ne hl (by decide : is_letter '-' = false)),
      if_neg (is_letter_ne hl (by decide : is_letter '!' = false)),
      if_neg (is_letter_ne hl (by decide : is_letter '/' = false)),
      if_neg (is_letter_ne hl (by decide : is_letter '*' = false)),
      if_neg (is_letter_ne hl (by decide : is_letter '<' = false)),
      if_neg (is_letter_ne hl (by decide : is_letter '>' = false)),
      if_neg (is_letter_ne hl (by decide : is_letter '\x7b' = false)),
      if_neg (is_letter_ne hl (by decide : is_letter '\x7d' = false)),
      if_neg (is_letter_ne hl (by decide : is_letter '[' = false)),
      if_neg (is_letter_ne hl (by decide : is_letter ']' = false)),
      if_neg (is_letter_ne hl (by decide : is_letter '%' = false)),
      if_neg (is_letter_ne hl (by decide : is_letter '|' = false)),
      if_neg (is_letter_ne hl (by decide : is_letter '&' = false)),
      if_neg (is_letter_ne hl (by decide : is_letter '"' = false)),
      if_neg (is_letter_ne hl (by decide : is_letter '\x00' = false)),
      if_pos hl]
  conv_lhs => rw [gettoken]
  split
  · rename_i r heq
    rw [hws, hcase] at heq
    injection heq with hh
    rw [← hh, htok]
  · rename_i l3 heq
    rw [hws, hcase] at heq
    exact Sum.noConfusion heq

/-- Reaching the integer branch: a digit starts the digit accumulation
loop, after which the last-read character is returned to the input. -/
theorem gettoken_digit_step (l : lexer) (tIn : token)
    (hd : isdigit (charAt l.input l.pos) = true)
    (hnl : is_letter (charAt l.input l.pos) = false) :
    gettoken l tIn
      = (let r := lexRun isdigit
             { l with pos := l.pos + 1, cur_linepos := l.cur_linepos + 1 }
             (charAt l.input l.pos) []
         ({ type := .TOKEN_INT, literal := r.1, line := l.cur_lineno,
            pos := l.cur_linepos + 1, strStart := tIn.strStart, strEnd := tIn.strEnd },
          { r.2.2 with pos := r.2.2.pos - 1, cur_linepos := r.2.2.cur_linepos - 1 })) := by
  have hws : skipWS { l with pos := l.pos + 1, cur_linepos := l.cur_linepos + 1 }
           = { l with pos := l.pos + 1, cur_linepos := l.cur_linepos + 1 } := by
    apply skipWS_id
    show isspace (charAt l.input (l.pos + 1 - 1)) = false
    rw [Nat.add_sub_cancel]
    exact isdigit_not_space hd
  have hcase : gettoken_case { l with pos := l.pos + 1, cur_linepos := l.cur_linepos + 1 } tIn
      = .inl (gettoken_tok { l with pos := l.pos + 1, cur_linepos := l.cur_linepos + 1 } tIn) := by
    unfold gettoken_case
    exact if_neg fun hp => (isdigit_ne hd (by decide : isdigit '/' = false)) hp.1
  have htok : gettoken_tok { l with pos := l.pos + 1, cur_linepos := l.cur_linepos + 1 } tIn
      = (let r := lexRun isdigit
             { l with pos := l.pos + 1, cur_linepos := l.cur_linepos + 1 }
             (charAt l.input l.pos) []
         ({ type := .TOKEN_INT, literal := r.1, line := l.cur_lineno,
            pos := l.cur_linepos + 1, strStart := tIn.strStart, strEnd := tIn.strEnd },
          { r.2.2 with pos := r.2.2.pos - 1, cur_linepos := r.2.2.cur_linepos - 1 })) := by
    unfold gettoken_tok
    simp only [mk_tok, Nat.add_sub_cancel,
      if_neg (isdigit_ne hd (by decide : isdigit '=' = false)),
      if_neg (isdigit_ne hd (by decide : isdigit ';' = false)),
      if_neg (isdigit_ne hd (by decide : isdigit ':' = false)),
      if_neg (isdigit_ne hd (by decide : isdigit '(' = false)),
      if_neg (isdigit_ne hd (by decide : isdigit ')' = false)),
      if_neg (isdigit_ne hd (by decide : isdigit ',' = false)),
      if_neg (isdigit_ne hd (by decide : isdigit '+' = false)),
      if_neg (isdigit_ne hd (by decide : isdigit '-' = false)),
      if_neg (isdigit_ne hd (by decide : isdigit '!' = false)),
      if_neg (isdigit_ne hd (by decide : isdigit '/' = false)),
      if_neg (isdigit_ne hd (by decide : isdigit '*' = false)),
      if_neg (isdigit_ne hd (by decide : isdigit '<' = false)),
      if_neg (isdigit_ne hd (by decide : isdigit '>' = false)),
      if_neg (isdigit_ne hd (by decide : isdigit '\x7b' = false)),
      if_neg (isdigit_ne hd (by decide : isdigit '\x7d' = false)),
      if_neg (isdigit_ne hd (by decide : isdigit '[' = false)),
      if_neg (isdigit_ne hd (by decide : isdigit ']' = false)),
      if_neg (isdigit_ne hd (by decide : isdigit '%' = false)),
      if_neg (isdigit_ne hd (by decide : isdigit '|' = false)),
      if_neg (isdigit_ne hd (by decide : isdigit '&' = false)),
      if_neg (isdigit_ne hd (by decide : isdigit '"' = false)),
      if_neg (isdigit_ne hd (by decide : isdigit '\x00' = false)),
      if_neg (by rw [hnl]; exact Bool.false_ne_true : ¬ is_letter (charAt l.input l.pos) = true),
      if_pos hd]
  conv_lhs => rw [gettoken]
  split
  · rename_i r heq
    rw [hws, hcase] at heq
    injection heq with hh
    rw [← hh, htok]
  · rename_i l3 heq
    rw [hws, hcase] at heq
    exact Sum.noConfusion heq

theorem skipWS_input (l : lexer) : (skipWS l).input = l.input := by
  induction l using skipWS.induct with
  | case1 x h1 h2 ih => rw [skipWS, dif_pos h1, if_pos h2]; exact ih
  | case2 x h1 h2 ih => rw [skipWS, dif_pos h1, if_neg h2]; exact ih
  | case3 x h1 => rw [skipWS, dif_neg h1]

theorem skipWS_pos_le (l : lexer) : l.pos ≤ (skipWS l).pos := by
  induction l using skipWS.induct with
  | case1 x h1 h2 ih => rw [skipWS, dif_pos h1, if_pos h2]; exact Nat.le_trans (Nat.le_succ _) ih
  | case2 x h1 h2 ih => rw [skipWS, dif_pos h1, if_neg h2]; exact Nat.le_trans (Nat.le_succ _) ih
  | case3 x h1 => rw [skipWS, dif_neg h1]

theorem skipComment_input (l : lexer) : (skipComment l).input = l.input := by
  obtain ⟨j, _, _, _, heq⟩ := skipComment_spec l
  rw [heq]

theorem skipComment_pos_le (l : lexer) : l.pos ≤ (skipComment l).pos := by
  obtain ⟨j, hle, _, _, heq⟩ := skipComment_spec l
  rw [heq]
  exact hle

theorem lexRun_length (cond : Char → Bool) (l : lexer) (ch : Char) (lit : List Char) :
    lit.length ≤ MAX_IDENT_LENGTH - 1 →
    (lexRun cond l ch lit).1.length ≤ MAX_IDENT_LENGTH - 1 := by
  induction l, ch, lit using lexRun.induct cond with
  | case1 l ch lit h1 ih =>
    intro _
    rw [lexRun, dif_pos h1]
    exact ih (by simp only [List.length_append, List.length_cons, List.length_nil]; omega)
  | case2 l ch lit h1 =>
    intro h
    rw [lexRun, dif_neg h1]
    exact h

theorem seg_succ (s : List Char) (start n : Nat) :
    seg s start (n + 1) = charAt s start :: seg s (start + 1) n := by
  simp only [seg, List.range_succ_eq_map, List.map_cons, List.map_map, Nat.add_zero]
  congr 1
  refine List.map_congr_left fun k _ => ?_
  simp only [Function.comp_apply]
  congr 1
  omega

/-- Running the accumulation loop over `n + 1` remaining free slots of
the literal, with the whole window satisfying `cond`: the loop stores
the current character and the next `n` input characters, stops holding
the character at offset `n`, and leaves the cursor one past it. -/
theorem lexRun_run (cond : Char → Bool) :
    ∀ (n : Nat) (l : lexer) (ch : Char) (lit : List Char),
      lit.length + (n + 1) = MAX_IDENT_LENGTH - 1 →
      cond ch = true →
      (∀ k, k < n + 1 → cond (charAt l.input (l.pos + k)) = true) →
      lexRun cond l ch lit
        = (lit ++ ch :: seg l.input l.pos n, charAt l.input (l.pos + n),
           { l with pos := l.pos + n + 1, cur_linepos := l.cur_linepos + n + 1 }) := by
  intro n
  induction n with
  | zero =>
    intro l ch lit hlen hc _
    rw [lexRun, dif_pos ⟨hc, by omega⟩]
    rw [lexRun, dif_neg (fun hh => by
      have := hh.2
      simp only [List.length_append, List.length_cons, List.length_nil] at this
      omega)]
    simp [seg]
  | succ n ih =>
    intro l ch lit hlen hc hrun
    rw [lexRun, dif_pos ⟨hc, by omega⟩]
    rw [ih _ _ _
      (by simp only [List.length_append, List.length_cons, List.length_nil]; omega)
      (by
        have := hrun 0 (by omega)
        simpa using this)
      (by
        intro k hk
        have := hrun (k + 1) (by omega)
        show cond (charAt l.input (l.pos + 1 + k)) = true
        have harg : l.pos + 1 + k = l.pos + (k + 1) := by omega
        rw [harg]
        exact this)]
    rw [seg_succ]
    simp only [List.append_assoc, List.cons_append, List.nil_append]
    have h1 : l.pos + 1 + n = l.pos + (n + 1) := by omega
    have h3 : l.cur_linepos + 1 + n + 1 = l.cur_linepos + (n + 1) + 1 := by omega
    rw [h1, h3]

/-- Every token built by the switch carries a literal of at most
`MAX_IDENT_LENGTH - 1` characters, so together with its terminating NUL
it fits the 64-byte buffer. -/
theorem gettoken_tok_literal (l2 : lexer) (tIn : token) :
    ((gettoken_tok l2 tIn).1).literal.length ≤ MAX_IDENT_LENGTH - 1 := by
  unfold gettoken_tok
  by_cases c1 : charAt l2.input (l2.pos - 1) = '='
  · rw [if_pos c1]
    by_cases d1 : charAt l2.input l2.pos = '='
    · rw [if_pos d1]
      simp only [mk_tok, MAX_IDENT_LENGTH, List.length_cons, List.length_nil]
      decide
    · rw [if_neg d1]
      simp only [mk_tok, MAX_IDENT_LENGTH, List.length_cons, List.length_nil]
      decide
  · rw [if_neg c1]
    by_cases c2 : charAt l2.input (l2.pos - 1) = ';'
    · rw [if_pos c2]
      simp only [mk_tok, MAX_IDENT_LENGTH, List.length_cons, List.length_nil]
      decide
    · rw [if_neg c2]
      by_cases c3 : charAt l2.input (l2.pos - 1) = ':'
      · rw [if_pos c3]
        simp only [mk_tok, MAX_IDENT_LENGTH, List.length_cons, List.length_nil]
        decide
      · rw [if_neg c3]
        by_cases c4 : charAt l2.input (l2.pos - 1) = '('
        · rw [if_pos c4]
          simp only [mk_tok, MAX_IDENT_LENGTH, List.length_cons, List.length_nil]
          decide
        · rw [if_neg c4]
          by_cases c5 : charAt l2.input (l2.pos - 1) = ')'
          · rw [if_pos c5]
            simp only [mk_tok, MAX_IDENT_LENGTH, List.length_cons, List.length_nil]
            decide
          · rw [if_neg c5]
            by_cases c6 : charAt l2.input (l2.pos - 1) = ','
            · rw [if_pos c6]
              simp only [mk_tok, MAX_IDENT_LENGTH, List.length_cons, List.length_nil]
              decide
            · rw [if_neg c6]
              by_cases c7 : charAt l2.input (l2.pos - 1) = '+'
              · rw [if_pos c7]
                simp only [mk_tok, MAX_IDENT_LENGTH, List.length_cons, List.length_nil]
                decide
              · rw [if_neg c7]
                by_cases c8 : charAt l2.input (l2.pos - 1) = '-'
                · rw [if_pos c8]
                  simp only [mk_tok, MAX_IDENT_LENGTH, List.length_cons, List.length_nil]
                  decide
                · rw [if_neg c8]
                  by_cases c9 : charAt l2.input (l2.pos - 1) = '!'
                  · rw [if_pos c9]
                    by_cases d9 : charAt l2.input l2.pos = '='
                    · rw [if_pos d9]
                      simp only [mk_tok, MAX_IDENT_LENGTH, List.length_cons, List.length_nil]
                      decide
                    · rw [if_neg d9]
                      simp only [mk_tok, MAX_IDENT_LENGTH, List.length_cons, List.length_nil]
                      decide
                  · rw [if_neg c9]
                    by_cases c10 : charAt l2.input (l2.pos - 1) = '/'
                    · rw [if_pos c10]
                      simp only [mk_tok, MAX_IDENT_LENGTH, List.length_cons, List.length_nil]
                      decide
                    · rw [if_neg c10]
                      by_cases c11 : charAt l2.input (l2.pos - 1) = '*'
                      · rw [if_pos c11]
                        simp only [mk_tok, MAX_IDENT_LENGTH, List.length_cons, List.length_nil]
                        decide
                      · rw [if_neg c11]
                        by_cases c12 : charAt l2.input (l2.pos - 1) = '<'
                        · rw [if_pos c12]
                          by_cases d12 : charAt l2.input l2.pos = '='
                          · rw [if_pos d12]
                            simp only [mk_tok, MAX_IDENT_LENGTH, List.length_cons, List.length_nil]
                            decide
                          · rw [if_neg d12]
                            simp only [mk_tok, MAX_IDENT_LENGTH, List.length_cons, List.length_nil]
                            decide
                        · rw [if_neg c12]
                          by_cases c13 : charAt l2.input (l2.pos - 1) = '>'
                          · rw [if_pos c13]
                            by_cases d13 : charAt l2.input l2.pos = '='
                            · rw [if_pos d13]
                              simp only [mk_tok, MAX_IDENT_LENGTH, List.length_cons, List.length_nil]
                              decide
                            · rw [if_neg d13]
                              simp only [mk_tok, MAX_IDENT_LENGTH, List.length_cons, List.length_nil]
                              decide
                          · rw [if_neg c13]
                            by_cases c14 : charAt l2.input (l2.pos - 1) = '\x7b'
                            · rw [if_pos c14]
                              simp only [mk_tok, MAX_IDENT_LENGTH, List.length_cons, List.length_nil]
                              decide
                            · rw [if_neg c14]
                              by_cases c15 : charAt l2.input (l2.pos - 1) = '\x7d'
                              · rw [if_pos c15]
                                simp only [mk_tok, MAX_IDENT_LENGTH, List.length_cons, List.length_nil]
                                decide
                              · rw [if_neg c15]
                                by_cases c16 : charAt l2.input (l2.pos - 1) = '['
                                · rw [if_pos c16]
                                  simp only [mk_tok, MAX_IDENT_LENGTH, List.length_cons, List.length_nil]
                                  decide
                                · rw [if_neg c16]
                                  by_cases c17 : charAt l2.input (l2.pos - 1) = ']'
                                  · rw [if_pos c17]
                                    simp only [mk_tok, MAX_IDENT_LENGTH, List.length_cons, List.length_nil]
                                    decide
                                  · rw [if_neg c17]
                                    by_cases c18 : charAt l2.input (l2.pos - 1) = '%'
                                    · rw [if_pos c18]
                                      simp only [mk_tok, MAX_IDENT_LENGTH, List.length_cons, List.length_nil]
                                      decide
                                    · rw [if_neg c18]
                                      by_cases c19 : charAt l2.input (l2.pos - 1) = '|'
                                      · rw [if_pos c19]
                                        by_cases d19 : charAt l2.input l2.pos = '|'
                                        · rw [if_pos d19]
                                          simp only [mk_tok, MAX_IDENT_LENGTH, List.length_cons, List.length_nil]
                                          decide
                                        · rw [if_neg d19]
                                          simp only [mk_tok, MAX_IDENT_LENGTH, List.length_cons, List.length_nil]
                                          decide
                                      · rw [if_neg c19]
                                        by_cases c20 : charAt l2.input (l2.pos - 1) = '&'
                                        · rw [if_pos c20]
                                          by_cases d20 : charAt l2.input l2.pos = '&'
                                          · rw [if_pos d20]
                                            simp only [mk_tok, MAX_IDENT_LENGTH, List.length_cons, List.length_nil]
                                            decide
                                          · rw [if_neg d20]
                                            simp only [mk_tok, MAX_IDENT_LENGTH, List.length_cons, List.length_nil]
                                            decide
                                        · rw [if_neg c20]
                                          by_cases c21 : charAt l2.input (l2.pos - 1) = '"'
                                          · rw [if_pos c21]
                                            simp only [mk_tok, MAX_IDENT_LENGTH, List.length_cons, List.length_nil]
                                            decide
                                          · rw [if_neg c21]
                                            by_cases c22 : charAt l2.input (l2.pos - 1) = '\x00'
                                            · rw [if_pos c22]
                                              simp only [mk_tok, MAX_IDENT_LENGTH, List.length_cons, List.length_nil]
                                              decide
                                            · rw [if_neg c22]
                                              by_cases c23 : is_letter (charAt l2.input (l2.pos - 1)) = true
                                              · rw [if_pos c23]
                                                simp only [mk_tok]
                                                exact lexRun_length _ _ _ _ (by decide)
                                              · rw [if_neg c23]
                                                by_cases c24 : isdigit (charAt l2.input (l2.pos - 1)) = true
                                                · rw [if_pos c24]
                                                  simp only [mk_tok]
                                                  exact lexRun_length _ _ _ _ (by decide)
                                                · rw [if_neg c24]
                                                  simp only [mk_tok, MAX_IDENT_LENGTH, List.length_cons, List.length_nil]
                                                  decide

/-- The literal bound lifted over the comment recursion of `gettoken`. -/
theorem gettoken_literal_aux :
    ∀ (n : Nat) (l0 : lexer) (tIn : token), l0.input.length + 1 - l0.pos ≤ n →
      ((gettoken l0 tIn).1).literal.length ≤ MAX_IDENT_LENGTH - 1 := by
  intro n
  induction n with
  | zero =>
    intro l0 tIn hm
    rw [gettoken]
    split
    · rename_i r heq
      unfold gettoken_case at heq
      by_cases hp : charAt (skipWS { l0 with pos := l0.pos + 1, cur_linepos := l0.cur_linepos + 1 }).input
            ((skipWS { l0 with pos := l0.pos + 1, cur_linepos := l0.cur_linepos + 1 }).pos - 1) = '/'
          ∧ charAt (skipWS { l0 with pos := l0.pos + 1, cur_linepos := l0.cur_linepos + 1 }).input
            (skipWS { l0 with pos := l0.pos + 1, cur_linepos := l0.cur_linepos + 1 }).pos = '/'
      · rw [if_pos hp] at heq; exact Sum.noConfusion heq
      · rw [if_neg hp] at heq
        injection heq with hh
        rw [← hh]
        exact gettoken_tok_literal _ _
    · rename_i l3 heq
      exfalso
      unfold gettoken_case at heq
      by_cases hp : charAt (skipWS { l0 with pos := l0.pos + 1, cur_linepos := l0.cur_linepos + 1 }).input
            ((skipWS { l0 with pos := l0.pos + 1, cur_linepos := l0.cur_linepos + 1 }).pos - 1) = '/'
          ∧ charAt (skipWS { l0 with pos := l0.pos + 1, cur_linepos := l0.cur_linepos + 1 }).input
            (skipWS { l0 with pos := l0.pos + 1, cur_linepos := l0.cur_linepos + 1 }).pos = '/'
      · have hP : l0.pos + 1 ≤ (skipWS { l0 with pos := l0.pos + 1, cur_linepos := l0.cur_linepos + 1 }).pos :=
          skipWS_pos_le { l0 with pos := l0.pos + 1, cur_linepos := l0.cur_linepos + 1 }
        have hlt : (skipWS { l0 with pos := l0.pos + 1, cur_linepos := l0.cur_linepos + 1 }).pos
            < l0.input.length := by
          have hne : charAt (skipWS { l0 with pos := l0.pos + 1, cur_linepos := l0.cur_linepos + 1 }).input
              (skipWS { l0 with pos := l0.pos + 1, cur_linepos := l0.cur_linepos + 1 }).pos ≠ '\x00' := by
            rw [hp.2]; decide
          have := charAt_lt hne
          rw [skipWS_input] at this
          exact this
        omega
      · rw [if_neg hp] at heq; exact Sum.noConfusion heq
  | succ n ih =>
    intro l0 tIn hm
    rw [gettoken]
    split
    · rename_i r heq
      unfold gettoken_case at heq
      by_cases hp : charAt (skipWS { l0 with pos := l0.pos + 1, cur_linepos := l0.cur_linepos + 1 }).input
            ((skipWS { l0 with pos := l0.pos + 1, cur_linepos := l0.cur_linepos + 1 }).pos - 1) = '/'
          ∧ charAt (skipWS { l0 with pos := l0.pos + 1, cur_linepos := l0.cur_linepos + 1 }).input
            (skipWS { l0 with pos := l0.pos + 1, cur_linepos := l0.cur_linepos + 1 }).pos = '/'
      · rw [if_pos hp] at heq; exact Sum.noConfusion heq
      · rw [if_neg hp] at heq
        injection heq with hh
        rw [← hh]
        exact gettoken_tok_literal _ _
    · rename_i l3 heq
      unfold gettoken_case at heq
      by_cases hp : charAt (skipWS { l0 with pos := l0.pos + 1, cur_linepos := l0.cur_linepos + 1 }).input
            ((skipWS { l0 with pos := l0.pos + 1, cur_linepos := l0.cur_linepos + 1 }).pos - 1) = '/'
          ∧ charAt (skipWS { l0 with pos := l0.pos + 1, cur_linepos := l0.cur_linepos + 1 }).input
            (skipWS { l0 with pos := l0.pos + 1, cur_linepos := l0.cur_linepos + 1 }).pos = '/'
      · rw [if_pos hp] at heq
        injection heq with hh
        have hP : l0.pos + 1 ≤ (skipWS { l0 with pos := l0.pos + 1, cur_linepos := l0.cur_linepos + 1 }).pos :=
          skipWS_pos_le { l0 with pos := l0.pos + 1, cur_linepos := l0.cur_linepos + 1 }
        have hlt : (skipWS { l0 with pos := l0.pos + 1, cur_linepos := l0.cur_linepos + 1 }).pos
            < l0.input.length := by
          have hne : charAt (skipWS { l0 with pos := l0.pos + 1, cur_linepos := l0.cur_linepos + 1 }).input
              (skipWS { l0 with pos := l0.pos + 1, cur_linepos := l0.cur_linepos + 1 }).pos ≠ '\x00' := by
            rw [hp.2]; decide
          have hlt0 := charAt_lt hne
          rw [skipWS_input] at hlt0
          exact hlt0
        have hsk : (skipWS { l0 with pos := l0.pos + 1, cur_linepos := l0.cur_linepos + 1 }).pos + 1
            ≤ (skipComment (skipWS { l0 with pos := l0.pos + 1, cur_linepos := l0.cur_linepos + 1 })).pos := by
          rw [skipComment, dif_pos ⟨by rw [hp.2]; decide, by rw [hp.2]; decide⟩]
          exact skipComment_pos_le
            { skipWS { l0 with pos := l0.pos + 1, cur_linepos := l0.cur_linepos + 1 } with
              pos := (skipWS { l0 with pos := l0.pos + 1, cur_linepos := l0.cur_linepos + 1 }).pos + 1,
              cur_linepos :=
                (skipWS { l0 with pos := l0.pos + 1, cur_linepos := l0.cur_linepos + 1 }).cur_linepos + 1 }
        apply ih
        rw [← hh]
        have hin3 : (skipComment (skipWS { l0 with pos := l0.pos + 1, cur_linepos := l0.cur_linepos + 1 })).input
            = l0.input := by
          rw [skipComment_input, skipWS_input]
        rw [hin3]
        omega
      · rw [if_neg hp] at heq; exact Sum.noConfusion heq

/-- The literal of any token `gettoken` produces fits the buffer. -/
theorem gettoken_literal_le (l0 : lexer) (tIn : token) :
    ((gettoken l0 tIn).1).literal.length ≤ MAX_IDENT_LENGTH - 1 :=
  gettoken_literal_aux (l0.input.length + 1 - l0.pos) l0 tIn (Nat.le_refl _)

/-- C8: when `gettoken` encounters two consecutive forward slashes it
skips all characters up to the next newline or end of input and returns
the first token after the comment; a line comment never produces a
token of its own. -/
theorem gettoken_line_comment (l : lexer) (tIn : token)
    (h1 : charAt l.input l.pos = '/') (h2 : charAt l.input (l.pos + 1) = '/') :
    ∃ j, l.pos + 2 ≤ j
      ∧ (∀ k, l.pos + 1 ≤ k → k < j → charAt l.input k ≠ '\n' ∧ charAt l.input k ≠ '\x00')
      ∧ (charAt l.input j = '\n' ∨ charAt l.input j = '\x00')
      ∧ gettoken l tIn
          = gettoken { l with pos := j, cur_linepos := l.cur_linepos + (j - l.pos) } tIn := by
  obtain ⟨j, hle0, hmid0, hend0, heq0⟩ :=
    skipComment_spec { l with pos := l.pos + 1, cur_linepos := l.cur_linepos + 1 }
  have hle : l.pos + 1 ≤ j := hle0
  have hmid : ∀ k, l.pos + 1 ≤ k → k < j →
      charAt l.input k ≠ '\n' ∧ charAt l.input k ≠ '\x00' := hmid0
  have hend : charAt l.input j = '\n' ∨ charAt l.input j = '\x00' := hend0
  have heq : skipComment { l with pos := l.pos + 1, cur_linepos := l.cur_linepos + 1 }
      = { input := l.input, pos := j, cur_lineno := l.cur_lineno,
          cur_linepos := l.cur_linepos + 1 + (j - (l.pos + 1)) } := heq0
  have hj2 : l.pos + 2 ≤ j := by
    rcases Nat.eq_or_lt_of_le hle with hk | hk
    · exfalso
      rcases hend with hn | hz
      · rw [← hk, h2] at hn; exact absurd hn (by decide)
      · rw [← hk, h2] at hz; exact absurd hz (by decide)
    · omega
  refine ⟨j, hj2, hmid, hend, ?_⟩
  rw [gettoken_comment_step l tIn h1 h2, heq]
  have harith : l.cur_linepos + 1 + (j - (l.pos + 1)) = l.cur_linepos + (j - l.pos) := by omega
  rw [harith]

theorem gettoken_line_comment_witness :
    ∃ j, (new_lexer (("//x y").toList)).pos + 2 ≤ j
      ∧ (∀ k, (new_lexer (("//x y").toList)).pos + 1 ≤ k → k < j →
          charAt (new_lexer (("//x y").toList)).input k ≠ '\n'
          ∧ charAt (new_lexer (("//x y").toList)).input k ≠ '\x00')
      ∧ (charAt (new_lexer (("//x y").toList)).input j = '\n'
         ∨ charAt (new_lexer (("//x y").toList)).input j = '\x00')
      ∧ gettoken (new_lexer (("//x y").toList)) tok0
          = gettoken
              { (new_lexer (("//x y").toList)) with
                  pos := j,
                  cur_linepos := (new_lexer (("//x y").toList)).cur_linepos
                    + (j - (new_lexer (("//x y").toList)).pos) }
              tok0 :=
  gettoken_line_comment (new_lexer (("//x y").toList)) tok0 (by decide) (by decide)

/-- C10: every token `gettoken` produces carries a literal of at most
`MAX_IDENT_LENGTH - 1` characters (so identifier, keyword and integer
literals in particular), and together with the terminating NUL all
writes fit the 64-byte `literal` buffer; a letter/digit run longer than
the limit is split: the token takes exactly the first
`MAX_IDENT_LENGTH - 1` characters and lexing resumes at the first
unconsumed character, which still belongs to the run. -/
theorem gettoken_literal_bounds :
    (∀ (l : lexer) (tIn : token),
        ((gettoken l tIn).1).literal.length ≤ MAX_IDENT_LENGTH - 1
        ∧ ((gettoken l tIn).1).literal.length + 1 ≤ 64)
    ∧ (∀ (l : lexer) (tIn : token),
        is_letter (charAt l.input l.pos) = true →
        (∀ k, k < MAX_IDENT_LENGTH →
          (is_letter (charAt l.input (l.pos + k)) || isdigit (charAt l.input (l.pos + k))) = true) →
        ((gettoken l tIn).1).literal = seg l.input l.pos (MAX_IDENT_LENGTH - 1)
        ∧ ((gettoken l tIn).2).pos = l.pos + (MAX_IDENT_LENGTH - 1)
        ∧ (is_letter (charAt l.input (l.pos + (MAX_IDENT_LENGTH - 1)))
            || isdigit (charAt l.input (l.pos + (MAX_IDENT_LENGTH - 1)))) = true)
    ∧ (∀ (l : lexer) (tIn : token),
        isdigit (charAt l.input l.pos) = true →
        is_letter (charAt l.input l.pos) = false →
        (∀ k, k < MAX_IDENT_LENGTH → isdigit (charAt l.input (l.pos + k)) = true) →
        ((gettoken l tIn).1).literal = seg l.input l.pos (MAX_IDENT_LENGTH - 1)
        ∧ ((gettoken l tIn).1).type = .TOKEN_INT
        ∧ ((gettoken l tIn).2).pos = l.pos + (MAX_IDENT_LENGTH - 1)
        ∧ isdigit (charAt l.input (l.pos + (MAX_IDENT_LENGTH - 1))) = true) := by
  refine ⟨?_, ?_, ?_⟩
  · intro l tIn
    have h := gettoken_literal_le l tIn
    exact ⟨h, by have h64 : MAX_IDENT_LENGTH - 1 = 63 := by decide
                 rw [h64] at h; omega⟩
  · intro l tIn hl hrun
    have hfull := lexRun_run (fun c => is_letter c || isdigit c) 62
        { l with pos := l.pos + 1, cur_linepos := l.cur_linepos + 1 }
        (charAt l.input l.pos) []
        (by decide)
        (by simp [hl])
        (by
          intro k hk
          show (is_letter (charAt l.input (l.pos + 1 + k)) || isdigit (charAt l.input (l.pos + 1 + k))) = true
          have harg : l.pos + 1 + k = l.pos + (k + 1) := by omega
          rw [harg]
          exact hrun (k + 1) (by simp only [MAX_IDENT_LENGTH]; omega))
    have hfull2 : lexRun (fun c => is_letter c || isdigit c)
        { l with pos := l.pos + 1, cur_linepos := l.cur_linepos + 1 }
        (charAt l.input l.pos) []
      = (charAt l.input l.pos :: seg l.input (l.pos + 1) 62,
         charAt l.input (l.pos + 1 + 62),
         { input := l.input, pos := l.pos + 1 + 62 + 1, cur_lineno := l.cur_lineno,
           cur_linepos := l.cur_linepos + 1 + 62 + 1 }) := hfull
    rw [gettoken_ident_step l tIn hl]
    simp only [hfull2]
    refine ⟨?_, ?_, ?_⟩
    · show charAt l.input l.pos :: seg l.input (l.pos + 1) 62 = seg l.input l.pos (MAX_IDENT_LENGTH - 1)
      have h63 : MAX_IDENT_LENGTH - 1 = 62 + 1 := by decide
      conv_rhs => rw [h63, seg_succ]
    · show l.pos + 1 + 62 + 1 - 1 = l.pos + (MAX_IDENT_LENGTH - 1)
      have h63 : MAX_IDENT_LENGTH - 1 = 63 := by decide
      rw [h63]; omega
    · exact hrun (MAX_IDENT_LENGTH - 1) (by simp only [MAX_IDENT_LENGTH]; omega)
  · intro l tIn hd hnl hrun
    have hfull := lexRun_run isdigit 62
        { l with pos := l.pos + 1, cur_linepos := l.cur_linepos + 1 }
        (charAt l.input l.pos) []
        (by decide)
        hd
        (by
          intro k hk
          show isdigit (charAt l.input (l.pos + 1 + k)) = true
          have harg : l.pos + 1 + k = l.pos + (k + 1) := by omega
          rw [harg]
          exact hrun (k + 1) (by simp only [MAX_IDENT_LENGTH]; omega))
    have hfull2 : lexRun isdigit
        { l with pos := l.pos + 1, cur_linepos := l.cur_linepos + 1 }
        (charAt l.input l.pos) []
      = (charAt l.input l.pos :: seg l.input (l.pos + 1) 62,
         charAt l.input (l.pos + 1 + 62),
         { input := l.input, pos := l.pos + 1 + 62 + 1, cur_lineno := l.cur_lineno,
           cur_linepos := l.cur_linepos + 1 + 62 + 1 }) := hfull
    rw [gettoken_digit_step l tIn hd hnl]
    simp only [hfull2]
    refine ⟨?_, ?_, ?_, ?_⟩
    · show charAt l.input l.pos :: seg l.input (l.pos + 1) 62 = seg l.input l.pos (MAX_IDENT_LENGTH - 1)
      have h63 : MAX_IDENT_LENGTH - 1 = 62 + 1 := by decide
      conv_rhs => rw [h63, seg_succ]
    · trivial
    · show l.pos + 1 + 62 + 1 - 1 = l.pos + (MAX_IDENT_LENGTH - 1)
      have h63 : MAX_IDENT_LENGTH - 1 = 63 := by decide
      rw [h63]; omega
    · exact hrun (MAX_IDENT_LENGTH - 1) (by simp only [MAX_IDENT_LENGTH]; omega)

theorem gettoken_literal_bounds_witness :
    is_letter (charAt (new_lexer (List.replicate 64 'a')).input (new_lexer (List.replicate 64 'a')).pos) = true
    ∧ (((gettoken (new_lexer (List.replicate 64 'a')) tok0).1).literal
          = seg (new_lexer (List.replicate 64 'a')).input (new_lexer (List.replicate 64 'a')).pos
              (MAX_IDENT_LENGTH - 1)
       ∧ ((gettoken (new_lexer (List.replicate 64 'a')) tok0).2).pos
          = (new_lexer (List.replicate 64 'a')).pos + (MAX_IDENT_LENGTH - 1)
       ∧ (is_letter (charAt (new_lexer (List.replicate 64 'a')).input
              ((new_lexer (List.replicate 64 'a')).pos + (MAX_IDENT_LENGTH - 1)))
          || isdigit (charAt (new_lexer (List.replicate 64 'a')).input
              ((new_lexer (List.replicate 64 'a')).pos + (MAX_IDENT_LENGTH - 1)))) = true) :=
  ⟨by decide,
   gettoken_literal_bounds.2.1 (new_lexer (List.replicate 64 'a')) tok0 (by decide) (by decide)⟩

/-! ## REPL lemmas -/

theorem repl_step_flow {P B V : Type} (core : repl_core P B V)
    (st : repl_state) (line : Option String) :
    (repl_step core st line).2.flow = .continue_loop := by
  cases line with
  | none => rfl
  | some input =>
    simp only [repl_step]
    split_ifs <;> rfl

theorem repl_step_none {P B V : Type} (core : repl_core P B V) (st : repl_state) :
    repl_step core st none = (st, ⟨none, none, [">> "], .eof, .continue_loop⟩) := rfl

theorem repl_step_parse_error {P B V : Type} (core : repl_core P B V)
    (st : repl_state) (input : String) (h : 0 < (core.parse input).1.length) :
    repl_step core st (some input)
      = (st, ⟨none, none,
          [">> ", "Parsing error:\n"] ++ (core.parse input).1.map (fun m => "- " ++ m ++ "\n"),
          .parse_error (core.parse input).1, .continue_loop⟩) := by
  simp only [repl_step]
  rw [if_pos h]

theorem repl_step_compile_error {P B V : Type} (core : repl_core P B V)
    (st : repl_state) (input : String)
    (hp : (core.parse input).1.length = 0)
    (hc : (core.compile st.symbol_table st.constants (core.parse input).2).1 ≠ 0) :
    repl_step core st (some input)
      = ({ st with
            symbol_table := (core.compile st.symbol_table st.constants (core.parse input).2).2.1,
            constants := (core.compile st.symbol_table st.constants (core.parse input).2).2.2.1 },
         ⟨some (st.symbol_table, st.constants), none,
          [">> ", core.compiler_error_str
              (core.compile st.symbol_table st.constants (core.parse input).2).1 ++ "\n"],
          .compile_error (core.compile st.symbol_table st.constants (core.parse input).2).1,
          .continue_loop⟩) := by
  simp only [repl_step]
  rw [if_neg (by omega), if_pos hc]

theorem repl_step_runtime_error {P B V : Type} (core : repl_core P B V)
    (st : repl_state) (input : String)
    (hp : (core.parse input).1.length = 0)
    (hc : (core.compile st.symbol_table st.constants (core.parse input).2).1 = 0)
    (hr : (core.vm_run (core.compile st.symbol_table st.constants (core.parse input).2).2.2.2
            st.globals).1 ≠ 0) :
    repl_step core st (some input)
      = ({ st with
            symbol_table := (core.compile st.symbol_table st.constants (core.parse input).2).2.1,
            constants := (core.compile st.symbol_table st.constants (core.parse input).2).2.2.1 },
         ⟨some (st.symbol_table, st.constants), some st.globals,
          [">> ", "Error executing bytecode: "
              ++ toString (core.vm_run (core.compile st.symbol_table st.constants
                    (core.parse input).2).2.2.2 st.globals).1 ++ "\n"],
          .runtime_error (core.vm_run (core.compile st.symbol_table st.constants
              (core.parse input).2).2.2.2 st.globals).1,
          .continue_loop⟩) := by
  simp only [repl_step]
  rw [if_neg (by omega), if_neg (by rw [hc]; exact fun hh => hh rfl), if_pos hr]

theorem repl_step_success_hidden {P B V : Type} (core : repl_core P B V)
    (st : repl_state) (input : String)
    (hp : (core.parse input).1.length = 0)
    (hc : (core.compile st.symbol_table st.constants (core.parse input).2).1 = 0)
    (hr : (core.vm_run (core.compile st.symbol_table st.constants (core.parse input).2).2.2.2
            st.globals).1 = 0)
    (hob : (core.vm_stack_last_popped (core.vm_run (core.compile st.symbol_table st.constants
            (core.parse input).2).2.2.2 st.globals).2).type = .OBJ_COMPILED_FUNCTION
         ∨ (core.vm_stack_last_popped (core.vm_run (core.compile st.symbol_table st.constants
            (core.parse input).2).2.2.2 st.globals).2).type = .OBJ_BUILTIN) :
    repl_step core st (some input)
      = ({ symbol_table := (core.compile st.symbol_table st.constants (core.parse input).2).2.1,
           constants := (core.compile st.symbol_table st.constants (core.parse input).2).2.2.1,
           globals := core.vm_globals (core.vm_run (core.compile st.symbol_table st.constants
              (core.parse input).2).2.2.2 st.globals).2 },
         ⟨some (st.symbol_table, st.constants), some st.globals,
          [">> "],
          .value (core.vm_stack_last_popped (core.vm_run (core.compile st.symbol_table st.constants
              (core.parse input).2).2.2.2 st.globals).2) false,
          .continue_loop⟩) := by
  simp only [repl_step]
  rw [if_neg (by omega), if_neg (by rw [hc]; exact fun hh => hh rfl),
    if_neg (by rw [hr]; exact fun hh => hh rfl), if_pos hob]

theorem repl_step_success_shown {P B V : Type} (core : repl_core P B V)
    (st : repl_state) (input : String)
    (hp : (core.parse input).1.length = 0)
    (hc : (core.compile st.symbol_table st.constants (core.parse input).2).1 = 0)
    (hr : (core.vm_run (core.compile st.symbol_table st.constants (core.parse input).2).2.2.2
            st.globals).1 = 0)
    (hob : ¬ ((core.vm_stack_last_popped (core.vm_run (core.compile st.symbol_table st.constants
            (core.parse input).2).2.2.2 st.globals).2).type = .OBJ_COMPILED_FUNCTION
         ∨ (core.vm_stack_last_popped (core.vm_run (core.compile st.symbol_table st.constants
            (core.parse input).2).2.2.2 st.globals).2).type = .OBJ_BUILTIN)) :
    repl_step core st (some input)
      = ({ symbol_table := (core.compile st.symbol_table st.constants (core.parse input).2).2.1,
           constants := (core.compile st.symbol_table st.constants (core.parse input).2).2.2.1,
           globals := core.vm_globals (core.vm_run (core.compile st.symbol_table st.constants
              (core.parse input).2).2.2.2 st.globals).2 },
         ⟨some (st.symbol_table, st.constants), some st.globals,
          [">> ", core.print_object (core.vm_stack_last_popped (core.vm_run
              (core.compile st.symbol_table st.constants (core.parse input).2).2.2.2
              st.globals).2), "\n"],
          .value (core.vm_stack_last_popped (core.vm_run (core.compile st.symbol_table st.constants
              (core.parse input).2).2.2.2 st.globals).2) true,
          .continue_loop⟩) := by
  simp only [repl_step]
  rw [if_neg (by omega), if_neg (by rw [hc]; exact fun hh => hh rfl),
    if_neg (by rw [hr]; exact fun hh => hh rfl), if_neg hob]

theorem repl_step_globals_pres {P B V : Type} (core : repl_core P B V)
    (j : Fin GLOBALS_SIZE)
    (hvm : ∀ (bc : B) (g : Fin GLOBALS_SIZE → object),
      (core.vm_run bc g).1 = 0 → core.vm_globals (core.vm_run bc g).2 j = g j)
    (st : repl_state) (line : Option String) :
    (repl_step core st line).1.globals j = st.globals j := by
  cases line with
  | none => rfl
  | some input =>
    simp only [repl_step]
    split_ifs with h1 h2 h3 h4
    · rfl
    · rfl
    · rfl
    · exact hvm _ _ (not_not.mp h3)
    · exact hvm _ _ (not_not.mp h3)

/-- C9: the REPL loop never terminates from within.  Every iteration of
the `while (1)` body ends in `continue`; in particular a failed `fgets`
(end of standard input) leaves the state untouched and prints the
prompt again, and running the loop on any finite stream of reads never
reaches the `return` statement of `repl`. -/
theorem repl_never_returns {P B V : Type} (core : repl_core P B V) :
    (∀ (st : repl_state) (line : Option String),
        (repl_step core st line).2.flow = .continue_loop)
    ∧ (∀ st : repl_state,
        repl_step core st none = (st, ⟨none, none, [">> "], .eof, .continue_loop⟩))
    ∧ (∀ (st : repl_state) (lines : List (Option String)),
        (repl_loop core st lines).2 = none)
    ∧ (∀ lines : List (Option String), (repl core lines).2 = none) := by
  have hloop : ∀ (st : repl_state) (lines : List (Option String)),
      (repl_loop core st lines).2 = none := by
    intro st lines
    induction lines generalizing st with
    | nil => rfl
    | cons l rest ih =>
      rw [repl_loop]
      simp only [repl_step_flow]
      exact ih _
  exact ⟨fun st line => repl_step_flow core st line,
         fun st => repl_step_none core st,
         hloop,
         fun lines => hloop repl_init lines⟩

/-- C1: the symbol table and constant pool are created once before the
REPL loop and threaded through it — every compiler invocation receives
exactly the pair carried in the loop state, and each iteration
continues with the state the previous one produced; after every
error-free execution every slot of the globals array is copied out of
the VM into the loop state, having been passed in via
`vm_new_with_globals`; consequently a global slot that no later
successful run overwrites reaches every later VM instance unchanged, so
a binding defined in one submission stays readable in all later
submissions. -/
theorem repl_global_state_contract {P B V : Type} (core : repl_core P B V) :
    (∀ (st : repl_state) (line : Option String),
        (repl_step core st line).2.compile_args = none
        ∨ (repl_step core st line).2.compile_args = some (st.symbol_table, st.constants))
    ∧ (∀ (st : repl_state) (l : Option String) (rest : List (Option String)),
        repl_loop core st (l :: rest) = repl_loop core (repl_step core st l).1 rest)
    ∧ (∀ (st : repl_state) (input : String),
        (core.parse input).1.length = 0 →
        (core.compile st.symbol_table st.constants (core.parse input).2).1 = 0 →
        (core.vm_run (core.compile st.symbol_table st.constants (core.parse input).2).2.2.2
            st.globals).1 = 0 →
        (repl_step core st (some input)).1.globals
            = core.vm_globals (core.vm_run (core.compile st.symbol_table st.constants
                (core.parse input).2).2.2.2 st.globals).2
        ∧ (repl_step core st (some input)).2.vm_globals_arg = some st.globals
        ∧ (repl_step core st (some input)).2.compile_args = some (st.symbol_table, st.constants))
    ∧ (∀ j : Fin GLOBALS_SIZE,
        (∀ (bc : B) (g : Fin GLOBALS_SIZE → object),
          (core.vm_run bc g).1 = 0 → core.vm_globals (core.vm_run bc g).2 j = g j) →
        ∀ (st : repl_state) (lines : List (Option String)),
          (repl_loop core st lines).1.globals j = st.globals j) := by
  refine ⟨?_, ?_, ?_, ?_⟩
  · intro st line
    cases line with
    | none => exact Or.inl rfl
    | some input =>
      simp only [repl_step]
      split_ifs
      · exact Or.inl rfl
      · exact Or.inr rfl
      · exact Or.inr rfl
      · exact Or.inr rfl
      · exact Or.inr rfl
  · intro st l rest
    rw [repl_loop]
    simp only [repl_step_flow]
  · intro st input hp hc hr
    by_cases hob : (core.vm_stack_last_popped (core.vm_run (core.compile st.symbol_table
          st.constants (core.parse input).2).2.2.2 st.globals).2).type = .OBJ_COMPILED_FUNCTION
        ∨ (core.vm_stack_last_popped (core.vm_run (core.compile st.symbol_table
          st.constants (core.parse input).2).2.2.2 st.globals).2).type = .OBJ_BUILTIN
    · rw [repl_step_success_hidden core st input hp hc hr hob]
      exact ⟨rfl, rfl, rfl⟩
    · rw [repl_step_success_shown core st input hp hc hr hob]
      exact ⟨rfl, rfl, rfl⟩
  · intro j hvm st lines
    induction lines generalizing st with
    | nil => rfl
    | cons l rest ih =>
      rw [repl_loop]
      simp only [repl_step_flow]
      rw [ih]
      exact repl_step_globals_pres core j hvm st l

theorem repl_global_state_contract_witness :
    (repl_loop triv_core st0 [some ("let x = 1"), none]).1.globals ⟨0, by decide⟩
      = st0.globals ⟨0, by decide⟩ :=
  (repl_global_state_contract triv_core).2.2.2 ⟨0, by decide⟩
    (fun _ _ _ => rfl) st0 [some ("let x = 1"), none]

/-- C5: after a REPL submission that parses, compiles and executes
without error, the value returned by `vm_stack_last_popped` is printed
if and only if its type is neither `OBJ_COMPILED_FUNCTION` nor
`OBJ_BUILTIN` (every other type, closures included, is printed). -/
theorem repl_prints_last_popped {P B V : Type} (core : repl_core P B V)
    (st : repl_state) (input : String)
    (hp : (core.parse input).1.length = 0)
    (hc : (core.compile st.symbol_table st.constants (core.parse input).2).1 = 0)
    (hr : (core.vm_run (core.compile st.symbol_table st.constants (core.parse input).2).2.2.2
            st.globals).1 = 0) :
    (((core.vm_stack_last_popped (core.vm_run (core.compile st.symbol_table st.constants
          (core.parse input).2).2.2.2 st.globals).2).type ≠ .OBJ_COMPILED_FUNCTION
      ∧ (core.vm_stack_last_popped (core.vm_run (core.compile st.symbol_table st.constants
          (core.parse input).2).2.2.2 st.globals).2).type ≠ .OBJ_BUILTIN) →
        (repl_step core st (some input)).2.event
          = .value (core.vm_stack_last_popped (core.vm_run (core.compile st.symbol_table
              st.constants (core.parse input).2).2.2.2 st.globals).2) true
        ∧ (repl_step core st (some input)).2.output
          = [">> ", core.print_object (core.vm_stack_last_popped (core.vm_run
              (core.compile st.symbol_table st.constants (core.parse input).2).2.2.2
              st.globals).2), "\n"])
    ∧ (((core.vm_stack_last_popped (core.vm_run (core.compile st.symbol_table st.constants
          (core.parse input).2).2.2.2 st.globals).2).type = .OBJ_COMPILED_FUNCTION
      ∨ (core.vm_stack_last_popped (core.vm_run (core.compile st.symbol_table st.constants
          (core.parse input).2).2.2.2 st.globals).2).type = .OBJ_BUILTIN) →
        (repl_step core st (some input)).2.event
          = .value (core.vm_stack_last_popped (core.vm_run (core.compile st.symbol_table
              st.constants (core.parse input).2).2.2.2 st.globals).2) false
        ∧ (repl_step core st (some input)).2.output = [">> "]) := by
  constructor
  · intro h
    rw [repl_step_success_shown core st input hp hc hr (fun hor => hor.elim h.1 h.2)]
    exact ⟨rfl, rfl⟩
  · intro h
    rw [repl_step_success_hidden core st input hp hc hr h]
    exact ⟨rfl, rfl⟩

theorem repl_prints_last_popped_witness :
    (repl_step triv_core st0 (some ("1 + 2"))).2.event
      = .value (triv_core.vm_stack_last_popped (triv_core.vm_run
          (triv_core.compile st0.symbol_table st0.constants
            (triv_core.parse ("1 + 2")).2).2.2.2 st0.globals).2) true
    ∧ (repl_step triv_core st0 (some ("1 + 2"))).2.output
      = [">> ", triv_core.print_object (triv_core.vm_stack_last_popped (triv_core.vm_run
          (triv_core.compile st0.symbol_table st0.constants
            (triv_core.parse ("1 + 2")).2).2.2.2 st0.globals).2), "\n"] :=
  (repl_prints_last_popped triv_core st0 ("1 + 2") rfl rfl rfl).1 (by decide)

/-- C6: on a parse, compile, or runtime error in a REPL submission the
error is reported and the loop continues with state intact: a parse
error leaves the whole state untouched; a compile error leaves the
whole state untouched whenever the compiler hands back the symbol table
and constant pool it was given (the spec's recovery contract for the
compiler, whose sources are not in the surveyed tree); on a runtime
error the copy-out of the VM globals is skipped, so the caller's
globals array is exactly as it was after the last successful
submission, while the symbol table and constant pool carry the
(successful) compiler's updates and are threaded on. -/
theorem repl_error_recovery {P B V : Type} (core : repl_core P B V)
    (st : repl_state) (input : String) :
    ((0 < (core.parse input).1.length →
        (repl_step core st (some input)).1 = st
        ∧ (repl_step core st (some input)).2.event = .parse_error (core.parse input).1
        ∧ (repl_step core st (some input)).2.flow = .continue_loop))
    ∧ ((core.parse input).1.length = 0 →
       (core.compile st.symbol_table st.constants (core.parse input).2).1 ≠ 0 →
       (core.compile st.symbol_table st.constants (core.parse input).2).2.1 = st.symbol_table →
       (core.compile st.symbol_table st.constants (core.parse input).2).2.2.1 = st.constants →
        (repl_step core st (some input)).1 = st
        ∧ (repl_step core st (some input)).2.event
            = .compile_error (core.compile st.symbol_table st.constants (core.parse input).2).1
        ∧ (repl_step core st (some input)).2.flow = .continue_loop)
    ∧ ((core.parse input).1.length = 0 →
       (core.compile st.symbol_table st.constants (core.parse input).2).1 = 0 →
       (core.vm_run (core.compile st.symbol_table st.constants (core.parse input).2).2.2.2
          st.globals).1 ≠ 0 →
        (repl_step core st (some input)).1.globals = st.globals
        ∧ (repl_step core st (some input)).1.symbol_table
            = (core.compile st.symbol_table st.constants (core.parse input).2).2.1
        ∧ (repl_step core st (some input)).1.constants
            = (core.compile st.symbol_table st.constants (core.parse input).2).2.2.1
        ∧ (repl_step core st (some input)).2.event
            = .runtime_error (core.vm_run (core.compile st.symbol_table st.constants
                (core.parse input).2).2.2.2 st.globals).1
        ∧ (repl_step core st (some input)).2.flow = .continue_loop) := by
  refine ⟨?_, ?_, ?_⟩
  · intro h
    rw [repl_step_parse_error core st input h]
    exact ⟨rfl, rfl, rfl⟩
  · intro hp hc hs hcn
    rw [repl_step_compile_error core st input hp hc, hs, hcn]
    exact ⟨rfl, rfl, rfl⟩
  · intro hp hc hr
    rw [repl_step_runtime_error core st input hp hc hr]
    exact ⟨rfl, rfl, rfl, rfl, rfl⟩

theorem repl_error_recovery_witness :
    (repl_step parse_err_core st0 (some ("let = ;"))).1 = st0
    ∧ (repl_step parse_err_core st0 (some ("let = ;"))).2.event
        = .parse_error (parse_err_core.parse ("let = ;")).1
    ∧ (repl_step parse_err_core st0 (some ("let = ;"))).2.flow = .continue_loop :=
  (repl_error_recovery parse_err_core st0 ("let = ;")).1 (by decide)

theorem read_file_step1 :
    readLoop (List.replicate BUFSIZ '\x00') bigFile 0
      = readLoop (List.replicate BUFSIZ 'a' ++ List.replicate BUFSIZ '\x00') ['b'] BUFSIZ := by
  have htake : bigFile.take BUFSIZ = List.replicate BUFSIZ 'a' := by
    simp only [bigFile, List.take_append_eq_append_take, List.take_replicate,
      List.length_replicate, Nat.sub_self, List.take_zero, List.append_nil, min_self]
  have hdrop : bigFile.drop BUFSIZ = ['b'] := by
    simp only [bigFile, List.drop_append_eq_append_drop, List.drop_replicate,
      List.length_replicate, Nat.sub_self, List.drop_zero]
    simp
  rw [readLoop, dif_pos (by rw [htake, List.length_replicate]; decide)]
  simp only [htake, hdrop, List.length_replicate]
  rw [if_pos (Nat.le_refl _)]
  simp only [List.drop_replicate, Nat.sub_self, List.replicate_zero, List.append_nil, Nat.zero_add]

theorem read_file_step2 :
    readLoop (List.replicate BUFSIZ 'a' ++ List.replicate BUFSIZ '\x00') ['b'] BUFSIZ
      = ('b' :: (List.replicate BUFSIZ 'a' ++ List.replicate BUFSIZ '\x00').drop 1,
         BUFSIZ + 1) := by
  rw [readLoop, dif_pos (by decide)]
  simp only [show (['b'] : List Char).take BUFSIZ = ['b'] from by decide,
             show (['b'] : List Char).drop BUFSIZ = [] from by decide,
             List.length_cons, List.length_nil]
  rw [if_neg (by decide)]
  rw [readLoop, dif_neg (by decide)]
  simp only [List.singleton_append]

theorem read_file_bigFile :
    read_file bigFile
      = 'b' :: ((List.replicate BUFSIZ 'a' ++ List.replicate BUFSIZ '\x00').drop 1).set BUFSIZ '\x00' := by
  simp only [read_file, read_file_step1, read_file_step2, List.set_cons_succ]

/-- C2 (code bug): the claim — and the spec's intent — is that
`read_file` reads the entire file, but the code does not: every `fread`
writes at offset 0 of the buffer, so for a file one byte longer than
`BUFSIZ` the second chunk overwrites the first byte.  The C string
handed to the lexer starts with the last chunk's first byte rather
than the file's first byte and differs from the file contents. -/
theorem read_file_loses_big_files :
    (cString (read_file bigFile)).head? = some 'b'
    ∧ bigFile.head? = some 'a'
    ∧ cString (read_file bigFile) ≠ bigFile := by
  have hhead : (cString (read_file bigFile)).head? = some 'b' := by
    rw [read_file_bigFile, cString, List.takeWhile_cons]
    simp
  have hbig : bigFile.head? = some 'a' := by
    have hB : BUFSIZ = 8191 + 1 := by decide
    rw [bigFile, hB, List.replicate_succ, List.cons_append, List.head?_cons]
  refine ⟨hhead, hbig, ?_⟩
  intro hcontra
  rw [hcontra, hbig] at hhead
  exact absurd hhead (by decide)

/-- C3: in script mode the exit code is 0 exactly when the run
succeeds: `run_script` returns `EXIT_FAILURE` whenever the parser
reports any error, whenever `compile_program` returns a non-zero error
code, and whenever `vm_run` returns a non-zero error code, and returns
`EXIT_SUCCESS` otherwise. -/
theorem run_script_exit_code {P B V : Type} (core : script_core P B V)
    (contents : List Char) :
    (run_script core contents = EXIT_SUCCESS ∨ run_script core contents = EXIT_FAILURE)
    ∧ (run_script core contents = EXIT_SUCCESS ↔
        (core.parse (cString (read_file contents))).1.length = 0
        ∧ (core.compile (core.parse (cString (read_file contents))).2).1 = 0
        ∧ (core.vm_run (core.compile (core.parse (cString (read_file contents))).2).2).1 = 0) := by
  simp only [run_script]
  split_ifs with h1 h2 h3
  · exact ⟨Or.inr rfl, by
      constructor
      · intro hs; exact absurd hs (by decide)
      · intro ⟨hp, _, _⟩; omega⟩
  · exact ⟨Or.inr rfl, by
      constructor
      · intro hs; exact absurd hs (by decide)
      · intro ⟨_, hcmp, _⟩; exact absurd hcmp h2⟩
  · exact ⟨Or.inr rfl, by
      constructor
      · intro hs; exact absurd hs (by decide)
      · intro ⟨_, _, hvm⟩; exact absurd hvm h3⟩
  · exact ⟨Or.inl rfl, by
      constructor
      · intro _; exact ⟨by omega, not_not.mp h2, not_not.mp h3⟩
      · intro _; rfl⟩

/-- C4: `main` dispatches on the command line: with no arguments it
enters the REPL; with first argument `--version` it prints the banner
`Pepper v0.0.1` and returns 0; with any other first argument it runs
that argument as a script file. -/
theorem main_dispatch :
    (∀ prog : String, pepper_main [prog] = .repl_action)
    ∧ (∀ (prog : String) (rest : List String),
        pepper_main (prog :: "--version" :: rest) = .version_action ("Pepper v0.0.1\n") 0)
    ∧ (∀ (prog arg : String) (rest : List String), arg ≠ "--version" →
        pepper_main (prog :: arg :: rest) = .script_action arg) := by
  refine ⟨?_, ?_, ?_⟩
  · intro prog
    simp [pepper_main]
  · intro prog rest
    have hb : print_version = "Pepper v0.0.1\n" := rfl
    simp [pepper_main, hb]
  · intro prog arg rest h
    simp [pepper_main, h]

theorem main_dispatch_witness :
    pepper_main [("tny"), ("fib.pepper")] = .script_action ("fib.pepper") :=
  main_dispatch.2.2 ("tny") ("fib.pepper") [] (by decide)

/-- C7: resolving a name through intermediate function scopes returns
a `Global` or `Builtin` symbol unchanged, and otherwise promotes the
result to a `Free` symbol via `define_free` in every intermediate
scope, so each function the capture transits gains exactly one entry in
its own `free_symbols` list, carrying the resolved name. -/
theorem resolve_free_promotion
    (inner rest rest1 : symtab) (name : String) (s : symbol)
    (hname : ∀ fr ∈ inner, fr.store.lookup name = none)
    (hres : resolve rest name = some (s, rest1)) :
    ((s.scope = .GLOBAL_SCOPE ∨ s.scope = .BUILTIN_SCOPE) →
        resolve (inner ++ rest) name = some (s, inner ++ rest1))
    ∧ (s.scope ≠ .GLOBAL_SCOPE → s.scope ≠ .BUILTIN_SCOPE →
        ∃ (res : symbol) (inner1 : symtab),
          resolve (inner ++ rest) name = some (res, inner1 ++ rest1)
          ∧ inner1.length = inner.length
          ∧ (inner = [] → res = s)
          ∧ (inner ≠ [] → res.scope = .FREE_SCOPE ∧ res.name = s.name)
          ∧ ∀ (i : Nat) (h : i < inner.length) (h1 : i < inner1.length),
              ∃ cap : symbol, cap.name = s.name
                ∧ (inner1.get ⟨i, h1⟩).free_symbols
                    = (inner.get ⟨i, h⟩).free_symbols ++ [cap]) := by
  induction inner with
  | nil =>
    constructor
    · intro _
      simpa using hres
    · intro _ _
      exact ⟨s, [], by simpa using hres, rfl, fun _ => rfl,
        fun h => absurd rfl h, fun i h h1 => absurd h (Nat.not_lt_zero i)⟩
  | cons fr inner ih =>
    have hfr : fr.store.lookup name = none := hname fr (List.mem_cons_self fr inner)
    have hname1 : ∀ fr1 ∈ inner, fr1.store.lookup name = none :=
      fun fr1 hm => hname fr1 (List.mem_cons_of_mem fr hm)
    obtain ⟨ih1, ih2⟩ := ih hname1
    constructor
    · intro hGB
      have hmain := ih1 hGB
      show resolve (fr :: (inner ++ rest)) name = some (s, fr :: (inner ++ rest1))
      simp only [resolve, hfr, hmain, if_pos hGB]
    · intro hG hB
      obtain ⟨res0, inner0, hres0, hlen0, hnil0, hcons0, hidx0⟩ := ih2 hG hB
      have hscope0 : res0.scope ≠ .GLOBAL_SCOPE ∧ res0.scope ≠ .BUILTIN_SCOPE := by
        by_cases hinner : inner = []
        · rw [hnil0 hinner]; exact ⟨hG, hB⟩
        · constructor
          · rw [(hcons0 hinner).1]; decide
          · rw [(hcons0 hinner).1]; decide
      have hname0 : res0.name = s.name := by
        by_cases hinner : inner = []
        · rw [hnil0 hinner]
        · exact (hcons0 hinner).2
      refine ⟨(define_free fr res0).1, (define_free fr res0).2 :: inner0, ?_, ?_, ?_, ?_, ?_⟩
      · show resolve (fr :: (inner ++ rest)) name
          = some ((define_free fr res0).1, (define_free fr res0).2 :: (inner0 ++ rest1))
        have hnot : ¬(res0.scope = sym_scope.GLOBAL_SCOPE
            ∨ res0.scope = sym_scope.BUILTIN_SCOPE) :=
          fun hor => hor.elim hscope0.1 hscope0.2
        simp only [resolve, hfr, hres0, if_neg hnot]
      · simp [hlen0]
      · intro h
        exact absurd h (List.cons_ne_nil fr inner)
      · intro _
        exact ⟨rfl, hname0⟩
      · intro i h h1
        cases i with
        | zero =>
          exact ⟨res0, hname0, rfl⟩
        | succ i =>
          have h2 : i < inner.length := by
            simpa using h
          have h3 : i < inner0.length := by
            simpa using h1
          obtain ⟨cap, hcap1, hcap2⟩ := hidx0 i h2 h3
          exact ⟨cap, hcap1, by simpa using hcap2⟩

theorem resolve_free_promotion_witness :
    ∃ (res : symbol) (inner1 : symtab),
      resolve ([empty_frame, empty_frame] ++ [xframe]) ("x") = some (res, inner1 ++ [xframe])
      ∧ inner1.length = ([empty_frame, empty_frame] : symtab).length
      ∧ (([empty_frame, empty_frame] : symtab) = [] → res = xsym)
      ∧ (([empty_frame, empty_frame] : symtab) ≠ [] →
          res.scope = .FREE_SCOPE ∧ res.name = xsym.name)
      ∧ ∀ (i : Nat) (h : i < ([empty_frame, empty_frame] : symtab).length)
          (h1 : i < inner1.length),
          ∃ cap : symbol, cap.name = xsym.name
            ∧ (inner1.get ⟨i, h1⟩).free_symbols
                = (([empty_frame, empty_frame] : symtab).get ⟨i, h⟩).free_symbols ++ [cap] :=
  (resolve_free_promotion [empty_frame, empty_frame] [xframe] [xframe] ("x") xsym
    (by decide) (by decide)).2 (by decide) (by decide)
